import Mathlib

/-!
# sfeMovie: the playback orchestrator (Movie.cpp)

A shallow embedding of `sfe::Movie` (src/Movie.cpp).  The object state becomes the
record `Movie`; every member function becomes a function on that record.  The
collaborators (the two track controllers, the FFmpeg demuxer, the `sf::Clock`, the
stop `Condition` and the watch thread) are outside Movie.cpp: each call made on one
of them is appended to a ghost `trace`, in program order, and each answer they give
is an explicit argument of the operation that asks for it.

Durations (`sf::Time`) are integers counting microseconds.  Wall-clock time is an
integer `now` handed to every operation that reads or restarts `m_overallTimer`.
Timestamps stay far inside the 64-bit range, so they are unbounded integers; the
division `ref_position / 1000` truncates towards zero (`Int.tdiv`).  The frame-time
threshold of `doSlowExactSeeking` goes through `sf::Time::asMilliseconds`, which
narrows to 32 bits, and is wrapped accordingly.  The two loops of
`doSlowExactSeeking` take an iteration budget and yield `none` when it runs out.
Sequences of calls are lists of `Op`, run by `Movie.run`.
-/

namespace sfe

/-! ## Data model -/

/-- Playback status, `Movie::Status`. -/
inductive Status where
  | Stopped
  | Playing
  | Paused
  deriving DecidableEq, Repr

/-- Seeking strategy, `Movie::SeekingMethod`. -/
inductive SeekingMethod where
  | FastApproximativeSeeking
  | FastLossySeeking
  | SlowExactSeeking
  deriving DecidableEq, Repr

/-- Which of the two track controllers (`m_audio`, `m_video`) a call goes to. -/
inductive Track where
  | audio
  | video
  deriving DecidableEq, Repr

/-- An undecoded packet.  Movie.cpp only ever reads `stream_index`. -/
structure AVPacket where
  stream_index : Int
  payload : Nat
  deriving DecidableEq, Repr

/-- Calls made by Movie.cpp on its collaborators, recorded in program order. -/
inductive Ev where
  /-- The call `m_overallTimer.restart()` made at wall-clock time `now`. -/
  | timerRestart (now : Int)
  | play (t : Track)
  | pause (t : Track)
  | stop (t : Track)
  | close (t : Track)
  | preSeek (t : Track) (position : Int)
  | postSeek (t : Track) (position : Int)
  | pushFrame (t : Track) (pkt : AVPacket)
  /-- The call `av_read_frame`. -/
  | readFrame
  /-- The pair `av_free_packet(pkt); av_free(pkt)`. -/
  | freePacket (pkt : AVPacket)
  /-- The call `av_seek_frame(ctx, streamID, target, flags)`. -/
  | seekFrame (streamID : Int) (target : Int) (flags : Nat)
  /-- The message "error while seeking" written to the error stream. -/
  | seekError
  /-- The call `avcodec_flush_buffers` on the codec context of a track. -/
  | flushBuffers (t : Track)
  /-- The call `m_video->loadNextImage(true)`. -/
  | loadNextImage
  /-- The assignment `*m_shouldStopCond = v`. -/
  | condSet (v : Int)
  | condRestore
  | condInvalidate
  | watchLaunch
  | watchWait
  | openInput
  | findStreamInfo
  | closeInput
  | outputError (err : Int)
  /-- The call that probes the container for a track of the given kind. -/
  | probeTrack (t : Track)
  /-- The call `m_video->preLoad()`. -/
  | preLoad
  deriving DecidableEq, Repr

/-- The state of a `sfe::Movie` object together with what Movie.cpp can observe of
its collaborators. -/
structure Movie where
  /-- Whether `m_avFormatCtx` is non-NULL. -/
  m_avFormatCtx : Bool
  m_hasVideo : Bool
  m_hasAudio : Bool
  m_eofReached : Bool
  m_status : Status
  m_duration : Int
  /-- The timer `m_overallTimer`: wall-clock time of its last restart. -/
  m_overallTimer : Int
  m_progressAtPause : Int
  /-- The value held by `*m_shouldStopCond`. -/
  condValue : Int
  /-- Whether `*m_shouldStopCond` is armed (restored and not invalidated). -/
  condValid : Bool
  /-- Number of times `m_watchThread.launch()` has run. -/
  watchLaunches : Nat
  /-- The stream id `m_audio->getStreamID()`. -/
  audioStreamID : Int
  /-- The stream id `m_video->getStreamID()`. -/
  videoStreamID : Int
  /-- The audio controller's `m_packetList`. -/
  audioQueue : List AVPacket
  /-- The video controller's packet list. -/
  videoQueue : List AVPacket
  /-- The value `m_video->getLatestPacketTimestamp()`, in milliseconds. -/
  videoTimestamp : Int
  /-- Ghost: calls made on collaborators so far, oldest first. -/
  trace : List Ev
  deriving DecidableEq, Repr

/-- The state built by the constructor `Movie::Movie`. -/
def Movie.new : Movie where
  m_avFormatCtx := false
  m_hasVideo := false
  m_hasAudio := false
  m_eofReached := false
  m_status := Status.Stopped
  m_duration := 0
  m_overallTimer := 0
  m_progressAtPause := 0
  condValue := 0
  condValid := true
  watchLaunches := 0
  audioStreamID := 0
  videoStreamID := 0
  audioQueue := []
  videoQueue := []
  videoTimestamp := 0
  trace := []

/-! ## Collaborator calls -/

/-- Append one collaborator call to the trace. -/
def Movie.log (s : Movie) (e : Ev) : Movie :=
  { s with trace := s.trace ++ [e] }

/-- The macro `IFAUDIO(sequence)`: run `sequence` only when `m_hasAudio`. -/
def IFAUDIO (s : Movie) (sequence : Movie → Movie) : Movie :=
  if s.m_hasAudio then sequence s else s

/-- The macro `IFVIDEO(sequence)`: run `sequence` only when `m_hasVideo`. -/
def IFVIDEO (s : Movie) (sequence : Movie → Movie) : Movie :=
  if s.m_hasVideo then sequence s else s

/-- The call `m_overallTimer.restart()` at time `now`. -/
def Movie.timerRestart (s : Movie) (now : Int) : Movie :=
  { s with m_overallTimer := now, trace := s.trace ++ [Ev.timerRestart now] }

/-- The value `m_overallTimer.getElapsedTime()` read at time `now`. -/
def Movie.getElapsedTime (s : Movie) (now : Int) : Int :=
  now - s.m_overallTimer

/-- Modelled from the spec: `Movie_audio::play` / `Movie_video::play`, whose bodies are
not in the sources; the command is forwarded to the sink. -/
def Movie.trackPlay (t : Track) (s : Movie) : Movie :=
  s.log (Ev.play t)

/-- Modelled from the spec: `Movie_audio::pause` / `Movie_video::pause`, whose bodies
are not in the sources; the command is forwarded to the sink. -/
def Movie.trackPause (t : Track) (s : Movie) : Movie :=
  s.log (Ev.pause t)

/-- Modelled from the spec: `Movie_audio::stop` / `Movie_video::stop`, whose bodies are
not in the sources; the command is forwarded to the sink, the packet queue of the
track is flushed and the video controller forgets its latest timestamp. -/
def Movie.trackStop (t : Track) (s : Movie) : Movie :=
  match t with
  | Track.audio => { s with audioQueue := [], trace := s.trace ++ [Ev.stop Track.audio] }
  | Track.video =>
    { s with videoQueue := [], videoTimestamp := 0, trace := s.trace ++ [Ev.stop Track.video] }

/-- Modelled from the spec: `Movie_audio::close` / `Movie_video::close`, whose bodies
are not in the sources; the packet queue of the track is destroyed. -/
def Movie.trackClose (t : Track) (s : Movie) : Movie :=
  match t with
  | Track.audio => { s with audioQueue := [], trace := s.trace ++ [Ev.close Track.audio] }
  | Track.video => { s with videoQueue := [], trace := s.trace ++ [Ev.close Track.video] }

/-- Modelled from the spec: `preSeek(position)` of a track controller, whose body is
not in the sources; pending packets are discarded before the seek. -/
def Movie.trackPreSeek (t : Track) (position : Int) (s : Movie) : Movie :=
  match t with
  | Track.audio =>
    { s with audioQueue := [], trace := s.trace ++ [Ev.preSeek Track.audio position] }
  | Track.video =>
    { s with videoQueue := [], trace := s.trace ++ [Ev.preSeek Track.video position] }

/-- Modelled from the spec: `postSeek(position)` of a track controller, whose body is
not in the sources; the sink is re-armed. -/
def Movie.trackPostSeek (t : Track) (position : Int) (s : Movie) : Movie :=
  s.log (Ev.postSeek t position)

/-- Modelled from the spec: `pushFrame(pkt)` of a track controller, whose body is not
in the sources; the packet is appended to the back of the queue of the track. -/
def Movie.pushFrame (t : Track) (pkt : AVPacket) (s : Movie) : Movie :=
  match t with
  | Track.audio =>
    { s with audioQueue := s.audioQueue ++ [pkt],
             trace := s.trace ++ [Ev.pushFrame Track.audio pkt] }
  | Track.video =>
    { s with videoQueue := s.videoQueue ++ [pkt],
             trace := s.trace ++ [Ev.pushFrame Track.video pkt] }

/-- The assignment `*m_shouldStopCond = v` (Condition.hpp is not in the sources; the
condition is a value plus an armed flag). -/
def Movie.condAssign (s : Movie) (v : Int) : Movie :=
  { s with condValue := v, trace := s.trace ++ [Ev.condSet v] }

/-- The call `m_shouldStopCond->restore()`: the condition is armed again. -/
def Movie.condRestore (s : Movie) : Movie :=
  { s with condValid := true, trace := s.trace ++ [Ev.condRestore] }

/-- The call `m_shouldStopCond->invalidate()`: waiters are released, the condition is
no longer armed. -/
def Movie.condInvalidate (s : Movie) : Movie :=
  { s with condValid := false, trace := s.trace ++ [Ev.condInvalidate] }

/-- The call `m_watchThread.launch()`. -/
def Movie.watchLaunch (s : Movie) : Movie :=
  { s with watchLaunches := s.watchLaunches + 1, trace := s.trace ++ [Ev.watchLaunch] }

/-! ## Playback state machine -/

/-- `Movie::hasAudioTrack`. -/
def Movie.hasAudioTrack (s : Movie) : Bool := s.m_hasAudio

/-- `Movie::hasVideoTrack`. -/
def Movie.hasVideoTrack (s : Movie) : Bool := s.m_hasVideo

/-- `Movie::getStatus`. -/
def Movie.getStatus (s : Movie) : Status := s.m_status

/-- `Movie::getEofReached`. -/
def Movie.getEofReached (s : Movie) : Bool := s.m_eofReached

/-- `Movie::setEofReached`. -/
def Movie.setEofReached (s : Movie) (flag : Bool) : Movie :=
  { s with m_eofReached := flag }

/-- `Movie::getPlayingOffset`, read at wall-clock time `now`. -/
def Movie.getPlayingOffset (s : Movie) (now : Int) : Int :=
  if s.m_status = Status.Playing then
    s.m_progressAtPause + s.getElapsedTime now
  else
    s.m_progressAtPause

/-- `Movie::play`, called at wall-clock time `now`. -/
def Movie.play (s : Movie) (now : Int) : Movie :=
  if s.m_status ≠ Status.Playing then
    let s1 := s.timerRestart now
    let s2 := IFAUDIO s1 (Movie.trackPlay Track.audio)
    let s3 := IFVIDEO s2 (Movie.trackPlay Track.video)
    let s4 :=
      if s3.m_status ≠ Status.Paused then
        ((s3.condAssign 0).condRestore).watchLaunch
      else s3
    { s4 with m_status := Status.Playing }
  else s

/-- `Movie::pause`, called at wall-clock time `now`; `audioOffset` is what
`m_audio->getPlayingOffset()` answers if it is asked. -/
def Movie.pause (s : Movie) (now : Int) (audioOffset : Int) : Movie :=
  if s.m_status = Status.Playing then
    let s1 :=
      if s.hasAudioTrack then
        { s with m_progressAtPause := audioOffset }
      else
        { s with m_progressAtPause := s.m_progressAtPause + s.getElapsedTime now }
    let s2 := { s1 with m_status := Status.Paused }
    let s3 := IFAUDIO s2 (Movie.trackPause Track.audio)
    IFVIDEO s3 (Movie.trackPause Track.video)
  else s

/-- `Movie::internalStop`.  The stop mutex is held for the whole body, so the body
runs atomically. -/
def Movie.internalStop (s : Movie) (calledFromWatchThread : Bool) : Movie :=
  if s.m_status ≠ Status.Stopped then
    let s1 := { s with m_status := Status.Stopped }
    let s2 := IFAUDIO s1 (Movie.trackStop Track.audio)
    let s3 := IFVIDEO s2 (Movie.trackStop Track.video)
    let s4 := { s3 with m_progressAtPause := 0 }
    let s5 := s4.setEofReached false
    let s6 := s5.condInvalidate
    if !calledFromWatchThread then s6.log Ev.watchWait else s6
  else s

/-- `Movie::stop`. -/
def Movie.stop (s : Movie) : Movie :=
  s.internalStop false

/-- `Movie::starvation`; the two arguments are what `m_audio->isStarving()` and
`m_video->isStarving()` answer if they are asked. -/
def Movie.starvation (s : Movie) (audioIsStarving videoIsStarving : Bool) : Movie :=
  let audioStarvation := if s.m_hasAudio then audioIsStarving else true
  let videoStarvation := if s.m_hasVideo then videoIsStarving else true
  if audioStarvation && videoStarvation then s.condAssign 1 else s

/-- `Movie::close`. -/
def Movie.close (s : Movie) : Movie :=
  let s1 := IFVIDEO s (Movie.trackClose Track.video)
  let s2 := IFAUDIO s1 (Movie.trackClose Track.audio)
  let s3 :=
    if s2.m_avFormatCtx then
      { s2 with m_avFormatCtx := false, trace := s2.trace ++ [Ev.closeInput] }
    else s2
  { s3 with
    m_hasAudio := false
    m_hasVideo := false
    m_eofReached := false
    m_status := Status.Stopped
    m_duration := 0
    m_progressAtPause := 0 }

/-! ## Opening a media resource -/

/-- Answers of the collaborators during `Movie::openFromFile`. -/
structure OpenEnv where
  /-- Result of `avformat_open_input`. -/
  openErr : Int
  /-- Result of `avformat_find_stream_info`. -/
  findErr : Int
  /-- Result of the video controller's track probe (first call in "Perform the audio
  and video loading"). -/
  videoFound : Bool
  /-- Result of the audio controller's track probe. -/
  audioFound : Bool
  /-- Result of `m_video->preLoad()`. -/
  preLoad : Bool

/-- `Movie::openFromFile`.  On failure `avformat_open_input` leaves the context
pointer NULL.  Debug output is not modelled. -/
def Movie.openFromFile (s : Movie) (env : OpenEnv) : Bool × Movie :=
  let s1 := s.stop
  let s2 := s1.close
  let s3 := { s2 with m_avFormatCtx := decide (env.openErr = 0),
                      trace := s2.trace ++ [Ev.openInput] }
  if env.openErr ≠ 0 then
    (false, s3.log (Ev.outputError env.openErr))
  else
    let s4 := s3.log Ev.findStreamInfo
    if env.findErr < 0 then
      (false, (s4.log (Ev.outputError env.findErr)).close)
    else
      let s5 := { s4 with m_hasVideo := env.videoFound,
                          trace := s4.trace ++ [Ev.probeTrack Track.video] }
      let s6 := { s5 with m_hasAudio := env.audioFound,
                          trace := s5.trace ++ [Ev.probeTrack Track.audio] }
      if s6.m_hasVideo then
        let preloaded := env.preLoad
        let s7 := s6.log Ev.preLoad
        (s7.m_hasAudio || (s7.m_hasVideo && preloaded), s7)
      else
        let preloaded := false
        (s6.m_hasAudio || (s6.m_hasVideo && preloaded), s6)

/-! ## Packet dispatch -/

/-- `Movie::saveFrame`. -/
def Movie.saveFrame (s : Movie) (frame : AVPacket) : Bool × Movie :=
  if s.m_hasAudio && decide (frame.stream_index = s.audioStreamID) then
    (true, s.pushFrame Track.audio frame)
  else if s.m_hasVideo && decide (frame.stream_index = s.videoStreamID) then
    (true, s.pushFrame Track.video frame)
  else
    (false, s)

/-- `Movie::readFrameAndQueue`; `res` and `pkt` are what `av_read_frame` answers if
it is asked.  The reader mutex is held for the whole body. -/
def Movie.readFrameAndQueue (s : Movie) (res : Int) (pkt : AVPacket) : Bool × Movie :=
  if s.getEofReached then
    (false, s)
  else
    let s1 := s.log Ev.readFrame
    if res < 0 then
      (false, (s1.setEofReached true).log (Ev.freePacket pkt))
    else
      let r := s1.saveFrame pkt
      if !r.1 then (true, r.2.log (Ev.freePacket pkt)) else (true, r.2)

/-! ## Seeking -/

/-- FFmpeg constant `AV_TIME_BASE`: the universal time base counts microseconds. -/
def AV_TIME_BASE : Int := 1000000

/-- FFmpeg constant `AVSEEK_FLAG_BACKWARD`. -/
def AVSEEK_FLAG_BACKWARD : Nat := 1

/-- FFmpeg constant `AVSEEK_FLAG_ANY`. -/
def AVSEEK_FLAG_ANY : Nat := 4

/-- The call `abs(x)` on a 64-bit integer, taken as the mathematical absolute value
(the overload on the full width, no truncation). -/
def absInt (x : Int) : Int :=
  if x < 0 then -x else x

/-- Wrap-around of a value stored in a signed 32-bit integer (`sf::Int32`). -/
def wrapInt32 (x : Int) : Int :=
  (x + 2147483648) % 4294967296 - 2147483648

/-- Wrap-around of a value stored in a signed 64-bit integer (`sf::Int64`). -/
def wrapInt64 (x : Int) : Int :=
  (x + 9223372036854775808) % 18446744073709551616 - 9223372036854775808

/-- SFML `operator *(sf::Time, sf::Int64)`: the product of the microsecond count and
the factor, held in an `sf::Int64`. -/
def timeMul (microseconds factor : Int) : Int :=
  wrapInt64 (microseconds * factor)

/-- SFML `sf::Time::asMilliseconds`: `static_cast<Int32>(m_microseconds / 1000)`. -/
def asMilliseconds (microseconds : Int) : Int :=
  wrapInt32 (microseconds.tdiv 1000)

/-- Answers of the collaborators during a seek.  An answer may depend on every call
made so far (the trace), so any deterministic demuxer and decoder is covered. -/
structure SeekEnv where
  /-- The value `(int64_t)(position.asSeconds() * AV_TIME_BASE)`: the position in
  microseconds after a round trip through single-precision seconds. -/
  refPosition : Int → Int
  /-- The value `av_rescale_q(v, AV_TIME_BASE_Q, streams[id]->time_base)`. -/
  av_rescale_q : Int → Int → Int
  /-- Result of `av_seek_frame(ctx, id, target, flags)` after the given calls. -/
  av_seek_frame : List Ev → Int → Int → Nat → Int
  /-- Value of `m_video->getLatestPacketTimestamp()` once `loadNextImage(true)` has
  run after the given calls, in milliseconds. -/
  loadedTimestamp : List Ev → Int
  /-- The value `m_video->getWantedFrameTime()`, in microseconds. -/
  wantedFrameTime : Int

/-- The recurring block
`if (av_seek_frame(ctx, id, target, flags) < 0) cerr << error; else avcodec_flush_buffers(codec);`. -/
def Movie.seekFrame (s : Movie) (env : SeekEnv) (streamID target : Int) (flags : Nat)
    (t : Track) : Movie :=
  let s1 := s.log (Ev.seekFrame streamID target flags)
  if env.av_seek_frame s.trace streamID target flags < 0 then
    s1.log Ev.seekError
  else
    s1.log (Ev.flushBuffers t)

/-- The call `m_video->loadNextImage(true)`: the body is not in the sources; what
Movie.cpp observes of it is the new latest packet timestamp. -/
def Movie.loadNextImage (s : Movie) (env : SeekEnv) : Movie :=
  { s with videoTimestamp := env.loadedTimestamp s.trace,
           trace := s.trace ++ [Ev.loadNextImage] }

/-- The expression `(position < getPlayingOffset()) ? AVSEEK_FLAG_BACKWARD : 0` that
every seeking method evaluates; `now` is the wall-clock time of the reading. -/
def Movie.seekFlags (s : Movie) (now position : Int) : Nat :=
  if position < s.getPlayingOffset now then AVSEEK_FLAG_BACKWARD else 0

/-- The audio branch (`else if (m_hasAudio)`) of the three seeking methods, which is
the same text in each but for the flags of the seek: `flags` in
`doFastApproximativeSeeking` and `doSlowExactSeeking` (`anyFrame` false),
`flags | AVSEEK_FLAG_ANY` in `doFastLossySeeking` (`anyFrame` true). -/
def Movie.seekAudio (s : Movie) (env : SeekEnv) (now position : Int) (anyFrame : Bool) :
    Movie :=
  let ref_position := env.refPosition position
  let audioStreamID := s.audioStreamID
  let flags := s.seekFlags now position
  let seek_target := env.av_rescale_q ref_position audioStreamID
  s.seekFrame env audioStreamID seek_target
    (if anyFrame then flags ||| AVSEEK_FLAG_ANY else flags) Track.audio

/-- `Movie::doFastApproximativeSeeking`; `now` is the wall-clock time at which
`getPlayingOffset()` is read. -/
def Movie.doFastApproximativeSeeking (s : Movie) (env : SeekEnv) (now position : Int) :
    Movie :=
  let ref_position := env.refPosition position
  if s.m_hasVideo then
    let videoStreamID := s.videoStreamID
    let flags := s.seekFlags now position
    let seek_target := env.av_rescale_q ref_position videoStreamID
    let s1 := s.seekFrame env videoStreamID seek_target flags Track.video
    let s2 := s1.loadNextImage env
    if absInt (s2.videoTimestamp - ref_position.tdiv 1000) > 20000 then
      s2.seekFrame env videoStreamID seek_target (flags ||| AVSEEK_FLAG_ANY) Track.video
    else s2
  else if s.m_hasAudio then
    s.seekAudio env now position false
  else s

/-- `Movie::doFastLossySeeking`. -/
def Movie.doFastLossySeeking (s : Movie) (env : SeekEnv) (now position : Int) : Movie :=
  let ref_position := env.refPosition position
  if s.m_hasVideo then
    let videoStreamID := s.videoStreamID
    let flags := s.seekFlags now position
    let seek_target := env.av_rescale_q ref_position videoStreamID
    let s1 := s.seekFrame env videoStreamID seek_target (flags ||| AVSEEK_FLAG_ANY) Track.video
    s1.loadNextImage env
  else if s.m_hasAudio then
    s.seekAudio env now position true
  else s

/-- The `do ... while` loop of `doSlowExactSeeking` ("we sought too late"), entered
with the current `seek_pos`.  `none` when the iteration budget runs out. -/
def Movie.overshootLoop (env : SeekEnv) (videoStreamID : Int) (flags : Nat)
    (ref_position : Int) : Nat → Movie → Int → Option Movie
  | 0, _, _ => none
  | fuel + 1, s, seek_pos =>
    let seek_pos := seek_pos - AV_TIME_BASE
    let seek_target := env.av_rescale_q seek_pos videoStreamID
    let s1 := s.seekFrame env videoStreamID seek_target flags Track.video
    let s2 := s1.loadNextImage env
    if seek_pos > 0 ∧ s2.videoTimestamp > ref_position.tdiv 1000 then
      Movie.overshootLoop env videoStreamID flags ref_position fuel s2 seek_pos
    else some s2

/-- The `while` loop of `doSlowExactSeeking` ("we sought too early").  `none` when
the iteration budget runs out. -/
def Movie.undershootLoop (env : SeekEnv) (ref_position : Int) : Nat → Movie → Option Movie
  | 0, _ => none
  | fuel + 1, s =>
    if s.videoTimestamp < ref_position.tdiv 1000 then
      Movie.undershootLoop env ref_position fuel (s.loadNextImage env)
    else some s

/-- `Movie::doSlowExactSeeking`; each of its two loops may run `fuel` times. -/
def Movie.doSlowExactSeeking (s : Movie) (env : SeekEnv) (fuel : Nat) (now position : Int) :
    Option Movie :=
  let ref_position := env.refPosition position
  if s.m_hasVideo then
    let videoStreamID := s.videoStreamID
    let flags := s.seekFlags now position
    let seek_target := env.av_rescale_q ref_position videoStreamID
    let s1 := s.seekFrame env videoStreamID seek_target flags Track.video
    let s2 := s1.loadNextImage env
    if absInt (s2.videoTimestamp - ref_position.tdiv 1000) > 20000 then
      some (s2.seekFrame env videoStreamID seek_target (flags ||| AVSEEK_FLAG_ANY) Track.video)
    else
      let r3 :=
        if s2.videoTimestamp > ref_position.tdiv 1000 then
          Movie.overshootLoop env videoStreamID flags ref_position fuel s2 ref_position
        else some s2
      match r3 with
      | none => none
      | some s3 =>
        if absInt (ref_position.tdiv 1000 - s3.videoTimestamp)
            > asMilliseconds (timeMul env.wantedFrameTime 3) then
          Movie.undershootLoop env ref_position fuel s3
        else some s3
  else if s.m_hasAudio then
    some (s.seekAudio env now position false)
  else some s

/-- `Movie::seekToPosition`.  The reader mutex is held for the whole body. -/
def Movie.seekToPosition (s : Movie) (env : SeekEnv) (fuel : Nat) (now position : Int)
    (method : SeekingMethod) : Option Movie :=
  match method with
  | SeekingMethod.FastApproximativeSeeking => some (s.doFastApproximativeSeeking env now position)
  | SeekingMethod.FastLossySeeking => some (s.doFastLossySeeking env now position)
  | SeekingMethod.SlowExactSeeking => s.doSlowExactSeeking env fuel now position

/-- `Movie::setPlayingOffset`; `now` is the wall-clock time at which the seek reads the
playing offset and `nowRestart` the later time at which the timer is restarted. -/
def Movie.setPlayingOffset (s : Movie) (env : SeekEnv) (fuel : Nat) (now nowRestart : Int)
    (position : Int) (method : SeekingMethod) : Option Movie :=
  let s1 := IFAUDIO s (Movie.trackPreSeek Track.audio position)
  let s2 := IFVIDEO s1 (Movie.trackPreSeek Track.video position)
  match s2.seekToPosition env fuel now position method with
  | none => none
  | some s3 =>
    let s4 := { s3 with m_progressAtPause := position }
    let s5 := s4.timerRestart nowRestart
    let s6 := IFAUDIO s5 (Movie.trackPostSeek Track.audio position)
    some (IFVIDEO s6 (Movie.trackPostSeek Track.video position))

/-! ## Vocabulary of the statements -/

/-- The `preSeek` calls that `setPlayingOffset` owes to the tracks that exist. -/
def Movie.preSeekCalls (s : Movie) (position : Int) : List Ev :=
  (if s.m_hasAudio then [Ev.preSeek Track.audio position] else []) ++
  (if s.m_hasVideo then [Ev.preSeek Track.video position] else [])

/-- The `postSeek` calls that `setPlayingOffset` owes to the tracks that exist. -/
def Movie.postSeekCalls (s : Movie) (position : Int) : List Ev :=
  (if s.m_hasAudio then [Ev.postSeek Track.audio position] else []) ++
  (if s.m_hasVideo then [Ev.postSeek Track.video position] else [])

/-- The `stop` commands owed to the tracks that exist. -/
def Movie.stopCalls (s : Movie) : List Ev :=
  (if s.m_hasAudio then [Ev.stop Track.audio] else []) ++
  (if s.m_hasVideo then [Ev.stop Track.video] else [])

/-- Calls that belong to the seek engine: demuxer seeks, their error message, codec
flushes and forward decodes. -/
def Ev.isSeekEngine : Ev → Bool
  | Ev.seekFrame _ _ _ => true
  | Ev.seekError => true
  | Ev.flushBuffers _ => true
  | Ev.loadNextImage => true
  | _ => false

/-- Commands addressed to a track controller. -/
def Ev.isTrackCommand : Ev → Bool
  | Ev.play _ => true
  | Ev.pause _ => true
  | Ev.stop _ => true
  | Ev.close _ => true
  | Ev.preSeek _ _ => true
  | Ev.postSeek _ _ => true
  | Ev.pushFrame _ _ => true
  | _ => false

/-- Every track that exists reports starvation. -/
def Movie.allExistingStarve (s : Movie) (audioIsStarving videoIsStarving : Bool) : Prop :=
  (s.m_hasAudio = true → audioIsStarving = true) ∧
  (s.m_hasVideo = true → videoIsStarving = true)

/-- The step from `s` to `s1` signalled the stop condition: one assignment of 1. -/
def Movie.signalled (s s1 : Movie) : Prop :=
  s1.trace = s.trace ++ [Ev.condSet 1] ∧ s1.condValue = 1

/-! ## Concrete scenarios -/

/-- A video-only movie that has been playing since wall-clock time 1 s, resumed from
0.5 s. -/
def sceneVideoPlaying : Movie :=
  { Movie.new with
    m_avFormatCtx := true
    m_hasVideo := true
    m_status := Status.Playing
    m_overallTimer := 1000000
    m_progressAtPause := 500000
    videoStreamID := 0 }

/-- A movie with both tracks, paused at 2 s, at end of file. -/
def sceneBothPaused : Movie :=
  { Movie.new with
    m_avFormatCtx := true
    m_hasVideo := true
    m_hasAudio := true
    m_eofReached := true
    m_status := Status.Paused
    m_overallTimer := 1000000
    m_progressAtPause := 2000000
    audioStreamID := 1
    videoStreamID := 0 }

/-- A fresh video-only movie that is open and stopped; video packets carry stream
id 0. -/
def sceneVideoStopped : Movie :=
  { Movie.new with
    m_avFormatCtx := true
    m_hasVideo := true
    videoStreamID := 0 }

/-- A container that opens and has a video track whose preload fails, and no audio
track. -/
def envPreloadFails : OpenEnv where
  openErr := 0
  findErr := 0
  videoFound := true
  audioFound := false
  preLoad := false

/-- A container that opens but has neither an audio nor a video track. -/
def envNoTrack : OpenEnv where
  openErr := 0
  findErr := 0
  videoFound := false
  audioFound := false
  preLoad := false

/-- A container whose stream information cannot be read. -/
def envNoStreamInfo : OpenEnv where
  openErr := 0
  findErr := -1
  videoFound := true
  audioFound := true
  preLoad := true

/-- What a run of the seek engine may change in the state: the video timestamp, and
the trace, which grows by calls that all satisfy `P`. -/
def Movie.SeekStep (P : Ev → Prop) (s s1 : Movie) : Prop :=
  ∃ (evs : List Ev) (ts : Int), (∀ e ∈ evs, P e) ∧
    s1 = { s with videoTimestamp := ts, trace := s.trace ++ evs }

/-- The property `P` holds of the forward decode, of the error message whenever a
demuxer seek can fail, and of the codec flush whenever a demuxer seek can succeed. -/
def SeekEnv.Admits (env : SeekEnv) (P : Ev → Prop) : Prop :=
  P Ev.loadNextImage ∧
  (∀ tr id tg fl, env.av_seek_frame tr id tg fl < 0 → P Ev.seekError) ∧
  (∀ tr id tg fl t, ¬ env.av_seek_frame tr id tg fl < 0 → P (Ev.flushBuffers t))

/-- A demuxer seek issued with the accept-any-frame flag. -/
def Ev.acceptsAnyFrame : Ev → Bool
  | Ev.seekFrame _ _ flags => flags.testBit 2
  | _ => false

/-- The calls made since the state `s`, read off a later state `s1`. -/
def Movie.callsSince (s s1 : Movie) : List Ev :=
  s1.trace.drop s.trace.length

/-- The state in which `setPlayingOffset` runs the seek: after the `preSeek` calls. -/
def Movie.afterPreSeek (s : Movie) (position : Int) : Movie :=
  IFVIDEO ( IFAUDIO s (Movie.trackPreSeek Track.audio position))
    (Movie.trackPreSeek Track.video position)

/-- A demuxer whose every seek fails, with a decoder that reports 0 ms; one frame
lasts 40 ms. -/
def envSeekFails : SeekEnv where
  refPosition := fun p => p
  av_rescale_q := fun v _ => v
  av_seek_frame := fun _ _ _ _ => -1
  loadedTimestamp := fun _ => 0
  wantedFrameTime := 40000

/-- A demuxer whose seeks succeed, with a decoder that always lands on `ts`
milliseconds; one frame lasts 40 ms. -/
def envLandsAt (ts : Int) : SeekEnv where
  refPosition := fun p => p
  av_rescale_q := fun v _ => v
  av_seek_frame := fun _ _ _ _ => 0
  loadedTimestamp := fun _ => ts
  wantedFrameTime := 40000

/-- A demuxer whose seeks succeed, with a decoder that lands on 7010 ms, then on
6800 ms after a rewind, then advances to 6900 ms and 7000 ms; one frame lasts
40 ms. -/
def envSteps : SeekEnv where
  refPosition := fun p => p
  av_rescale_q := fun v _ => v
  av_seek_frame := fun _ _ _ _ => 0
  loadedTimestamp := fun tr =>
    match tr.count Ev.loadNextImage with
    | 0 => 7010
    | 1 => 6800
    | 2 => 6900
    | _ => 7000
  wantedFrameTime := 40000

/-- The state after the initial phase of `doFastApproximativeSeeking` and
`doSlowExactSeeking` on a video track: the first demuxer seek and one forward
decode. -/
def Movie.afterFirstLanding (s : Movie) (env : SeekEnv) (now position : Int) : Movie :=
  (s.seekFrame env s.videoStreamID
    (env.av_rescale_q (env.refPosition position) s.videoStreamID)
    (s.seekFlags now position) Track.video).loadNextImage env

/-- The timestamp landed on after the first demuxer seek and forward decode, in
milliseconds. -/
def Movie.firstLanding (s : Movie) (env : SeekEnv) (now position : Int) : Int :=
  (s.afterFirstLanding env now position).videoTimestamp

/-- Between `s` and `s1` a demuxer seek with the accept-any-frame flag was issued. -/
def Movie.retryIssued (s s1 : Movie) : Prop :=
  ∃ e ∈ s.callsSince s1, e.acceptsAnyFrame = true

/-- One iteration of the overshoot correction as the spec words it: re-seek to the
rewound target `seek_pos` (in microseconds), then decode forward. -/
def Movie.rewindOnce (s : Movie) (env : SeekEnv) (videoStreamID : Int) (flags : Nat)
    (seek_pos : Int) : Movie :=
  (s.seekFrame env videoStreamID (env.av_rescale_q seek_pos videoStreamID) flags
    Track.video).loadNextImage env

/-- The state after `k` iterations of the overshoot correction for the target `T`
microseconds, as the spec words it: the k-th iteration re-seeks to `T` minus `k`
seconds and decodes forward. -/
def Movie.afterRewinds (s : Movie) (env : SeekEnv) (videoStreamID : Int) (flags : Nat)
    (T : Int) : Nat → Movie
  | 0 => s
  | k + 1 =>
    (Movie.afterRewinds s env videoStreamID flags T k).rewindOnce env videoStreamID flags
      (T - ((k : Int) + 1) * 1000000)

/-- The bound max(1, ceil(T / 1000000)) on the number of rewinds for a target of `T`
microseconds. -/
def overshootBound (T : Int) : Nat :=
  max 1 ((T + 999999) / 1000000).toNat

/-- `Movie::watch`, the body of the watch thread; `waitResult` is what
`m_shouldStopCond->waitAndLock(1, Condition::AutoUnlock)` answers. -/
def Movie.watch (s : Movie) (waitResult : Bool) : Movie :=
  if waitResult then s.internalStop true else s

/-- The `play` commands owed to the tracks that exist. -/
def Movie.playCalls (s : Movie) : List Ev :=
  (if s.m_hasAudio then [Ev.play Track.audio] else []) ++
  (if s.m_hasVideo then [Ev.play Track.video] else [])

/-- One operation on a movie, with the answers its collaborators give during it. -/
inductive Op where
  | play (now : Int)
  | pause (now audioOffset : Int)
  | stop
  | watch (waitResult : Bool)
  | setPlayingOffset (env : SeekEnv) (fuel : Nat) (now nowRestart position : Int)
      (method : SeekingMethod)
  | readFrameAndQueue (res : Int) (pkt : AVPacket)
  | starvation (audioIsStarving videoIsStarving : Bool)
  | close
  | openFromFile (env : OpenEnv)

/-- The state after one operation; `none` when the operation does not return within
its iteration budget. -/
def Movie.step (s : Movie) : Op → Option Movie
  | Op.play now => some (s.play now)
  | Op.pause now audioOffset => some (s.pause now audioOffset)
  | Op.stop => some s.stop
  | Op.watch waitResult => some (s.watch waitResult)
  | Op.setPlayingOffset env fuel now nowRestart position method =>
    s.setPlayingOffset env fuel now nowRestart position method
  | Op.readFrameAndQueue res pkt => some (s.readFrameAndQueue res pkt).2
  | Op.starvation audioIsStarving videoIsStarving =>
    some (s.starvation audioIsStarving videoIsStarving)
  | Op.close => some s.close
  | Op.openFromFile env => some (s.openFromFile env).2

/-- The state after a sequence of operations, each run on the state the previous one
left. -/
def Movie.run (s : Movie) : List Op → Option Movie
  | [] => some s
  | op :: ops =>
    match s.step op with
    | none => none
    | some s1 => s1.run ops

/-- Whether a step from `s` to `s1` is a transition from Stopped to Playing, as a
count. -/
def Movie.isStoppedToPlaying (s s1 : Movie) : Nat :=
  if s.m_status = Status.Stopped ∧ s1.m_status = Status.Playing then 1 else 0

/-- Number of transitions from Stopped to Playing along a sequence of operations. -/
def Movie.stoppedToPlaying (s : Movie) : List Op → Nat
  | [] => 0
  | op :: ops =>
    match s.step op with
    | none => 0
    | some s1 => s.isStoppedToPlaying s1 + s1.stoppedToPlaying ops

/-- Between `s` and `s1` the trace only grew, and the watch thread was launched `n`
times, by the counter and by the trace alike. -/
def Movie.Launches (s s1 : Movie) (n : Nat) : Prop :=
  s1.watchLaunches = s.watchLaunches + n ∧
  ∃ evs : List Ev, s1.trace = s.trace ++ evs ∧ evs.count Ev.watchLaunch = n

/-- Two playback sessions with a pause and resume inside the first: play, pause,
play, stop, play. -/
def opsTwoSessions : List Op :=
  [Op.play 0, Op.pause 1000000 0, Op.play 2000000, Op.stop, Op.play 3000000]

/-- A demuxer whose seeks succeed, with a decoder that lands on 6000 ms and then on
7000 ms; one frame lasts 715828 s, so that three frames exceed the 32-bit range in
milliseconds. -/
def envHugeFrame : SeekEnv where
  refPosition := fun p => p
  av_rescale_q := fun v _ => v
  av_seek_frame := fun _ _ _ _ => 0
  loadedTimestamp := fun tr =>
    match tr.count Ev.loadNextImage with
    | 0 => 6000
    | _ => 7000
  wantedFrameTime := 715828000000

/-- What follows a demuxer seek issued after the calls `tr`: the error message when
the seek fails, the flush of the codec buffers of the track when it succeeds. -/
def seekOutcome (env : SeekEnv) (tr : List Ev) (id tg : Int) (fl : Nat) (t : Track) : Ev :=
  if env.av_seek_frame tr id tg fl < 0 then Ev.seekError else Ev.flushBuffers t

/-- The flags of the first demuxer seek of a seeking method: the direction flag,
plus the accept-any-frame flag for `FastLossySeeking`. -/
def Movie.methodFlags (s : Movie) (now position : Int) (method : SeekingMethod) : Nat :=
  match method with
  | SeekingMethod.FastLossySeeking => s.seekFlags now position ||| AVSEEK_FLAG_ANY
  | _ => s.seekFlags now position

/-- The calls every seeking method owes first, from the state `s` in which the seek
starts: on the video track when it exists, a demuxer seek to the rescaled position
with the flags of the method, its outcome and one forward decode; else on the audio
track when it exists, a demuxer seek and its outcome; nothing without a track. -/
def Movie.firstSeekCalls (s : Movie) (env : SeekEnv) (now position : Int)
    (method : SeekingMethod) : List Ev :=
  if s.m_hasVideo then
    [Ev.seekFrame s.videoStreamID
       (env.av_rescale_q (env.refPosition position) s.videoStreamID)
       (s.methodFlags now position method),
     seekOutcome env s.trace s.videoStreamID
       (env.av_rescale_q (env.refPosition position) s.videoStreamID)
       (s.methodFlags now position method) Track.video,
     Ev.loadNextImage]
  else if s.m_hasAudio then
    [Ev.seekFrame s.audioStreamID
       (env.av_rescale_q (env.refPosition position) s.audioStreamID)
       (s.methodFlags now position method),
     seekOutcome env s.trace s.audioStreamID
       (env.av_rescale_q (env.refPosition position) s.audioStreamID)
       (s.methodFlags now position method) Track.audio]
  else []

/-- The corrective retry of `FastApproximativeSeeking` on a video track, from the
state `s` in which the seek starts: a second demuxer seek with the accept-any-frame
flag and its outcome when the first landing is more than 20000 ms off the target,
nothing otherwise. -/
def Movie.retryCalls (s : Movie) (env : SeekEnv) (now position : Int) : List Ev :=
  if absInt (s.firstLanding env now position - (env.refPosition position).tdiv 1000)
      > 20000 then
    [Ev.seekFrame s.videoStreamID
       (env.av_rescale_q (env.refPosition position) s.videoStreamID)
       (s.seekFlags now position ||| AVSEEK_FLAG_ANY),
     seekOutcome env (s.afterFirstLanding env now position).trace s.videoStreamID
       (env.av_rescale_q (env.refPosition position) s.videoStreamID)
       (s.seekFlags now position ||| AVSEEK_FLAG_ANY) Track.video]
  else []

/-! ## Playback state machine: theorems -/

/-- C1: from Playing, `pause()` yields Paused; the playing offset is then the audio
track's reported offset when an audio track exists and otherwise the previous
`progressAtPause` plus the timer's elapsed time at the pause; it is the same at every
later reading and for every state of the timer; after a following `play()` it is that
frozen value plus the time elapsed since that `play()`. -/
theorem pause_freezes_playing_offset (s : Movie) (now audioOffset : Int)
    (h : s.m_status = Status.Playing) :
    (s.pause now audioOffset).m_status = Status.Paused ∧
    (∀ t, (s.pause now audioOffset).getPlayingOffset t =
      if s.hasAudioTrack then audioOffset
      else s.m_progressAtPause + s.getElapsedTime now) ∧
    (∀ t0 t, ({ s.pause now audioOffset with m_overallTimer := t0 }).getPlayingOffset t =
      (s.pause now audioOffset).getPlayingOffset now) ∧
    (∀ tPlay, ((s.pause now audioOffset).play tPlay).m_status = Status.Playing) ∧
    (∀ tPlay t, ((s.pause now audioOffset).play tPlay).getPlayingOffset t =
      (s.pause now audioOffset).getPlayingOffset tPlay + (t - tPlay)) := by
  cases ha : s.m_hasAudio <;> cases hv : s.m_hasVideo <;>
    simp [Movie.pause, Movie.play, Movie.getPlayingOffset, Movie.getElapsedTime,
      Movie.hasAudioTrack, Movie.timerRestart, Movie.trackPause, Movie.trackPlay,
      Movie.log, IFAUDIO, IFVIDEO, h, ha, hv]

/-- Witness of C1 on the video-only scenario: paused at wall-clock 3 s the offset
freezes at 2.5 s. -/
theorem pause_freezes_playing_offset_witness :
    sceneVideoPlaying.m_status = Status.Playing ∧
    (sceneVideoPlaying.pause 3000000 0).m_status = Status.Paused ∧
    (sceneVideoPlaying.pause 3000000 0).getPlayingOffset 5000000 = 2500000 :=
  ⟨rfl, (pause_freezes_playing_offset sceneVideoPlaying 3000000 0 rfl).1,
    ((pause_freezes_playing_offset sceneVideoPlaying 3000000 0 rfl).2.1 5000000).trans
      (by decide)⟩

/-- C3: from Playing or Paused, `stop()` yields Stopped with `progressAtPause` zero
(so the playing offset is zero), the EOF flag cleared and the stop condition
invalidated; every track that exists, and no other, has received exactly one stop
command. -/
theorem stop_resets_playback (s : Movie)
    (h : s.m_status = Status.Playing ∨ s.m_status = Status.Paused) :
    s.stop.m_status = Status.Stopped ∧
    s.stop.m_progressAtPause = 0 ∧
    (∀ t, s.stop.getPlayingOffset t = 0) ∧
    s.stop.m_eofReached = false ∧
    s.stop.condValid = false ∧
    s.stop.trace = s.trace ++ s.stopCalls ++ [Ev.condInvalidate, Ev.watchWait] ∧
    (∀ k, (s.stop.trace.drop s.trace.length).count (Ev.stop k) =
      if (match k with
          | Track.audio => s.m_hasAudio
          | Track.video => s.m_hasVideo) then 1 else 0) := by
  have hs : s.m_status ≠ Status.Stopped := by
    rcases h with h | h <;> simp [h]
  have htr : s.stop.trace = s.trace ++ s.stopCalls ++ [Ev.condInvalidate, Ev.watchWait] := by
    cases ha : s.m_hasAudio <;> cases hv : s.m_hasVideo <;>
      simp [Movie.stop, Movie.internalStop, Movie.trackStop, Movie.condInvalidate,
        Movie.setEofReached, Movie.log, Movie.stopCalls, IFAUDIO, IFVIDEO, hs, ha, hv]
  refine ⟨?_, ?_, ?_, ?_, ?_, htr, ?_⟩
  · simp [Movie.stop, Movie.internalStop, hs]
    cases ha : s.m_hasAudio <;> cases hv : s.m_hasVideo <;>
      simp [Movie.trackStop, Movie.condInvalidate, Movie.setEofReached, Movie.log,
        IFAUDIO, IFVIDEO, ha, hv]
  · simp [Movie.stop, Movie.internalStop, hs]
    cases ha : s.m_hasAudio <;> cases hv : s.m_hasVideo <;>
      simp [Movie.trackStop, Movie.condInvalidate, Movie.setEofReached, Movie.log,
        IFAUDIO, IFVIDEO, ha, hv]
  · intro t
    simp [Movie.stop, Movie.internalStop, hs, Movie.getPlayingOffset]
    cases ha : s.m_hasAudio <;> cases hv : s.m_hasVideo <;>
      simp [Movie.trackStop, Movie.condInvalidate, Movie.setEofReached, Movie.log,
        IFAUDIO, IFVIDEO, ha, hv]
  · simp [Movie.stop, Movie.internalStop, hs]
    cases ha : s.m_hasAudio <;> cases hv : s.m_hasVideo <;>
      simp [Movie.trackStop, Movie.condInvalidate, Movie.setEofReached, Movie.log,
        IFAUDIO, IFVIDEO, ha, hv]
  · simp [Movie.stop, Movie.internalStop, hs]
    cases ha : s.m_hasAudio <;> cases hv : s.m_hasVideo <;>
      simp [Movie.trackStop, Movie.condInvalidate, Movie.setEofReached, Movie.log,
        IFAUDIO, IFVIDEO, ha, hv]
  · intro k
    rw [htr]
    cases k <;> cases ha : s.m_hasAudio <;> cases hv : s.m_hasVideo <;>
      simp [Movie.stopCalls, ha, hv, List.append_assoc]

/-- Witness of C3 on the paused two-track scenario. -/
theorem stop_resets_playback_witness :
    (sceneBothPaused.m_status = Status.Playing ∨ sceneBothPaused.m_status = Status.Paused) ∧
    sceneBothPaused.stop.m_status = Status.Stopped ∧
    sceneBothPaused.stop.trace =
      [Ev.stop Track.audio, Ev.stop Track.video, Ev.condInvalidate, Ev.watchWait] :=
  ⟨Or.inr rfl, (stop_resets_playback sceneBothPaused (Or.inr rfl)).1,
    (stop_resets_playback sceneBothPaused (Or.inr rfl)).2.2.2.2.2.1.trans (by decide)⟩

/-- C4: `play()` when Playing, `pause()` when Paused and `stop()` when Stopped return
the state they were given: status, timer, `progressAtPause`, EOF flag and trace are
all unchanged, so no command reaches a track controller and the timer is not
restarted. -/
theorem play_pause_stop_idempotent (s : Movie) (now audioOffset : Int) :
    (s.m_status = Status.Playing → s.play now = s) ∧
    (s.m_status = Status.Paused → s.pause now audioOffset = s) ∧
    (s.m_status = Status.Stopped → s.stop = s) := by
  refine ⟨?_, ?_, ?_⟩
  · intro h
    simp [Movie.play, h]
  · intro h
    simp [Movie.pause, h]
  · intro h
    simp [Movie.stop, Movie.internalStop, h]

/-- Witness of C4: pausing the paused scenario and stopping a fresh movie change
nothing. -/
theorem play_pause_stop_idempotent_witness :
    sceneVideoPlaying.play 7000000 = sceneVideoPlaying ∧
    sceneBothPaused.pause 7000000 42 = sceneBothPaused ∧
    Movie.new.stop = Movie.new :=
  ⟨(play_pause_stop_idempotent sceneVideoPlaying 7000000 0).1 rfl,
    (play_pause_stop_idempotent sceneBothPaused 7000000 42).2.1 rfl,
    (play_pause_stop_idempotent Movie.new 0 0).2.2 rfl⟩

/-- C5: the starvation check signals the stop condition exactly when every track that
exists reports starvation (both, when both exist; video alone without audio; audio
alone without video); when it does not signal, the state, and with it the stop
condition, is unchanged. -/
theorem starvation_signals_iff_all_starve (s : Movie) (audioIsStarving videoIsStarving : Bool) :
    (s.signalled (s.starvation audioIsStarving videoIsStarving) ↔
      s.allExistingStarve audioIsStarving videoIsStarving) ∧
    (s.m_hasAudio = true → s.m_hasVideo = true →
      (s.signalled (s.starvation audioIsStarving videoIsStarving) ↔
        (audioIsStarving = true ∧ videoIsStarving = true))) ∧
    (s.m_hasAudio = false → s.m_hasVideo = true →
      (s.signalled (s.starvation audioIsStarving videoIsStarving) ↔
        videoIsStarving = true)) ∧
    (s.m_hasAudio = true → s.m_hasVideo = false →
      (s.signalled (s.starvation audioIsStarving videoIsStarving) ↔
        audioIsStarving = true)) ∧
    (¬ s.signalled (s.starvation audioIsStarving videoIsStarving) →
      s.starvation audioIsStarving videoIsStarving = s) := by
  cases ha : s.m_hasAudio <;> cases hv : s.m_hasVideo <;>
    cases audioIsStarving <;> cases videoIsStarving <;>
    simp [Movie.starvation, Movie.signalled, Movie.allExistingStarve, Movie.condAssign, ha, hv]

/-- Witness of C5: with both tracks, video starving alone does not signal and leaves
the state unchanged; both starving signals. -/
theorem starvation_signals_iff_all_starve_witness :
    sceneBothPaused.starvation false true = sceneBothPaused ∧
    sceneBothPaused.signalled (sceneBothPaused.starvation true true) :=
  ⟨(starvation_signals_iff_all_starve sceneBothPaused false true).2.2.2.2
      (fun hsig => by
        have := ((starvation_signals_iff_all_starve sceneBothPaused false true).2.1
          rfl rfl).1 hsig
        simp at this),
    ((starvation_signals_iff_all_starve sceneBothPaused true true).2.1 rfl rfl).2
      ⟨rfl, rfl⟩⟩

/-! ## Packet dispatch: theorems -/

/-- C6: `readFrameAndQueue` follows the dispatch steps.  With the EOF flag set on
entry it returns "no more data" and the state is untouched (no demuxer call, no
queue change).  When the demuxer reports exhaustion the EOF flag is set, nothing is
enqueued and "no more data" is returned.  Otherwise the packet goes to the back of
the audio queue when an audio track exists and the ids match, else to the back of
the video queue when a video track exists and the ids match, else it is released
with both queues unchanged; "data available" is returned.  In every case "no more
data" is returned exactly when the EOF flag is set on return. -/
theorem readFrameAndQueue_dispatch (s : Movie) (res : Int) (pkt : AVPacket) :
    (s.m_eofReached = true →
      s.readFrameAndQueue res pkt = (false, s)) ∧
    (s.m_eofReached = false → res < 0 →
      s.readFrameAndQueue res pkt =
        (false, { s with m_eofReached := true,
                         trace := s.trace ++ [Ev.readFrame, Ev.freePacket pkt] })) ∧
    (s.m_eofReached = false → 0 ≤ res →
      s.m_hasAudio = true ∧ pkt.stream_index = s.audioStreamID →
      s.readFrameAndQueue res pkt =
        (true, { s with audioQueue := s.audioQueue ++ [pkt],
                        trace := s.trace ++ [Ev.readFrame, Ev.pushFrame Track.audio pkt] })) ∧
    (s.m_eofReached = false → 0 ≤ res →
      ¬ (s.m_hasAudio = true ∧ pkt.stream_index = s.audioStreamID) →
      s.m_hasVideo = true ∧ pkt.stream_index = s.videoStreamID →
      s.readFrameAndQueue res pkt =
        (true, { s with videoQueue := s.videoQueue ++ [pkt],
                        trace := s.trace ++ [Ev.readFrame, Ev.pushFrame Track.video pkt] })) ∧
    (s.m_eofReached = false → 0 ≤ res →
      ¬ (s.m_hasAudio = true ∧ pkt.stream_index = s.audioStreamID) →
      ¬ (s.m_hasVideo = true ∧ pkt.stream_index = s.videoStreamID) →
      s.readFrameAndQueue res pkt =
        (true, { s with trace := s.trace ++ [Ev.readFrame, Ev.freePacket pkt] })) ∧
    ((s.readFrameAndQueue res pkt).1 = false ↔
      (s.readFrameAndQueue res pkt).2.m_eofReached = true) := by
  refine ⟨?_, ?_, ?_, ?_, ?_, ?_⟩
  · intro h
    simp [Movie.readFrameAndQueue, Movie.getEofReached, h]
  · intro h hr
    simp [Movie.readFrameAndQueue, Movie.getEofReached, Movie.setEofReached, Movie.log, h, hr]
  · intro h hr ha
    have hr1 : ¬ res < 0 := not_lt.mpr hr
    simp [Movie.readFrameAndQueue, Movie.getEofReached, Movie.saveFrame, Movie.pushFrame,
      Movie.log, h, hr1, ha.1, ha.2.symm]
  · intro h hr ha hv
    have hr1 : ¬ res < 0 := not_lt.mpr hr
    have ha1 : ¬ (s.m_hasAudio = true ∧ s.videoStreamID = s.audioStreamID) := by
      intro hc
      exact ha ⟨hc.1, hv.2.trans hc.2⟩
    simp [Movie.readFrameAndQueue, Movie.getEofReached, Movie.saveFrame, Movie.pushFrame,
      Movie.log, h, hr1, hv.1, hv.2, ha1]
  · intro h hr ha hv
    have hr1 : ¬ res < 0 := not_lt.mpr hr
    simp [Movie.readFrameAndQueue, Movie.getEofReached, Movie.saveFrame, Movie.pushFrame,
      Movie.log, h, hr1, ha, hv]
  · cases he : s.m_eofReached
    · by_cases hr : res < 0
      · simp [Movie.readFrameAndQueue, Movie.getEofReached, Movie.setEofReached, Movie.log,
          he, hr]
      · by_cases ha : (s.m_hasAudio = true ∧ pkt.stream_index = s.audioStreamID)
        · simp [Movie.readFrameAndQueue, Movie.getEofReached, Movie.saveFrame,
            Movie.pushFrame, Movie.log, he, hr, ha.1, ha.2.symm]
        · by_cases hv : (s.m_hasVideo = true ∧ pkt.stream_index = s.videoStreamID)
          · have ha1 : ¬ (s.m_hasAudio = true ∧ s.videoStreamID = s.audioStreamID) := by
              intro hc
              exact ha ⟨hc.1, hv.2.trans hc.2⟩
            simp [Movie.readFrameAndQueue, Movie.getEofReached, Movie.saveFrame,
              Movie.pushFrame, Movie.log, he, hr, hv.1, hv.2, ha1]
          · simp [Movie.readFrameAndQueue, Movie.getEofReached, Movie.saveFrame,
              Movie.pushFrame, Movie.log, he, hr, ha, hv]
    · simp [Movie.readFrameAndQueue, Movie.getEofReached, he]

/-- Witness of C6: at end of file nothing happens; on a fresh video-only movie a
packet of stream 0 lands in the video queue and a packet of stream 7 is dropped. -/
theorem readFrameAndQueue_dispatch_witness :
    sceneBothPaused.readFrameAndQueue 0 ⟨0, 11⟩ = (false, sceneBothPaused) ∧
    (sceneVideoStopped.readFrameAndQueue 0 ⟨0, 11⟩).2.videoQueue = [⟨0, 11⟩] ∧
    (sceneVideoStopped.readFrameAndQueue 0 ⟨7, 12⟩).2.videoQueue = [] :=
  ⟨(readFrameAndQueue_dispatch sceneBothPaused 0 ⟨0, 11⟩).1 rfl,
    (congrArg (fun r => r.2.videoQueue)
      ((readFrameAndQueue_dispatch sceneVideoStopped 0 ⟨0, 11⟩).2.2.2.1 rfl (by decide)
        (by decide) ⟨rfl, rfl⟩)).trans (by decide),
    (congrArg (fun r => r.2.videoQueue)
      ((readFrameAndQueue_dispatch sceneVideoStopped 0 ⟨7, 12⟩).2.2.2.2.1 rfl (by decide)
        (by decide) (by decide))).trans (by decide)⟩

/-! ## Opening: theorems -/

/-- C7 (divergence): on a container that opens, whose video track is found but
fails to preload and which has no audio track, `openFromFile` returns false and
still reports a video track and holds an open container context, unlike `close()`;
on a container without any track it returns false with the context still open; the
failure to read stream information, a sibling path, does leave the closed state. -/
theorem openFromFile_retains_state_without_usable_track :
    (Movie.new.openFromFile envPreloadFails).1 = false ∧
    (Movie.new.openFromFile envPreloadFails).2.hasVideoTrack = true ∧
    (Movie.new.openFromFile envPreloadFails).2.m_avFormatCtx = true ∧
    (Movie.new.openFromFile envPreloadFails).2.close.hasVideoTrack = false ∧
    (Movie.new.openFromFile envPreloadFails).2.close.m_avFormatCtx = false ∧
    (Movie.new.openFromFile envNoTrack).1 = false ∧
    (Movie.new.openFromFile envNoTrack).2.m_avFormatCtx = true ∧
    (Movie.new.openFromFile envNoStreamInfo).1 = false ∧
    (Movie.new.openFromFile envNoStreamInfo).2.m_avFormatCtx = false ∧
    (Movie.new.openFromFile envNoStreamInfo).2.hasVideoTrack = false := by
  decide

/-! ## Seeking: shared lemmas -/

theorem Movie.SeekStep.refl (P : Ev → Prop) (s : Movie) : Movie.SeekStep P s s :=
  ⟨[], s.videoTimestamp, by simp, by simp⟩

theorem Movie.SeekStep.trans {P : Ev → Prop} {a b c : Movie}
    (hab : Movie.SeekStep P a b) (hbc : Movie.SeekStep P b c) : Movie.SeekStep P a c := by
  obtain ⟨e1, t1, h1, rfl⟩ := hab
  obtain ⟨e2, t2, h2, rfl⟩ := hbc
  refine ⟨e1 ++ e2, t2, ?_, by simp⟩
  intro e he
  rcases List.mem_append.mp he with h | h
  · exact h1 e h
  · exact h2 e h

theorem Movie.seekFrame_step {P : Ev → Prop} {env : SeekEnv} (hA : env.Admits P)
    (s : Movie) (id tg : Int) (fl : Nat) (t : Track) (hP : P (Ev.seekFrame id tg fl)) :
    Movie.SeekStep P s (s.seekFrame env id tg fl t) := by
  by_cases hr : env.av_seek_frame s.trace id tg fl < 0
  · refine ⟨[Ev.seekFrame id tg fl, Ev.seekError], s.videoTimestamp, ?_, ?_⟩
    · intro e he
      simp at he
      rcases he with rfl | rfl
      · exact hP
      · exact hA.2.1 _ _ _ _ hr
    · simp [Movie.seekFrame, Movie.log, hr]
  · refine ⟨[Ev.seekFrame id tg fl, Ev.flushBuffers t], s.videoTimestamp, ?_, ?_⟩
    · intro e he
      simp at he
      rcases he with rfl | rfl
      · exact hP
      · exact hA.2.2 _ _ _ _ t hr
    · simp [Movie.seekFrame, Movie.log, hr]

theorem Movie.loadNextImage_step {P : Ev → Prop} {env : SeekEnv} (hA : env.Admits P)
    (s : Movie) : Movie.SeekStep P s (s.loadNextImage env) := by
  refine ⟨[Ev.loadNextImage], env.loadedTimestamp s.trace, ?_, ?_⟩
  · intro e he
    simp at he
    subst he
    exact hA.1
  · simp [Movie.loadNextImage]

theorem Movie.overshootLoop_step {P : Ev → Prop} {env : SeekEnv} (hA : env.Admits P)
    (id : Int) (fl : Nat) (ref : Int) (hP : ∀ tg, P (Ev.seekFrame id tg fl)) :
    ∀ (fuel : Nat) (s : Movie) (pos : Int) (s1 : Movie),
      Movie.overshootLoop env id fl ref fuel s pos = some s1 → Movie.SeekStep P s s1 := by
  intro fuel
  induction fuel with
  | zero =>
    intro s pos s1 h
    simp [Movie.overshootLoop] at h
  | succ n ih =>
    intro s pos s1 h
    have h12 : Movie.SeekStep P s
        ((s.seekFrame env id (env.av_rescale_q (pos - AV_TIME_BASE) id) fl
          Track.video).loadNextImage env) :=
      (Movie.seekFrame_step hA s id _ fl Track.video (hP _)).trans
        (Movie.loadNextImage_step hA _)
    simp only [Movie.overshootLoop] at h
    split at h
    · exact h12.trans (ih _ _ _ h)
    · cases h
      exact h12

theorem Movie.undershootLoop_step {P : Ev → Prop} {env : SeekEnv} (hA : env.Admits P)
    (ref : Int) :
    ∀ (fuel : Nat) (s s1 : Movie),
      Movie.undershootLoop env ref fuel s = some s1 → Movie.SeekStep P s s1 := by
  intro fuel
  induction fuel with
  | zero =>
    intro s s1 h
    simp [Movie.undershootLoop] at h
  | succ n ih =>
    intro s s1 h
    simp only [Movie.undershootLoop] at h
    split at h
    · exact (Movie.loadNextImage_step hA s).trans (ih _ _ h)
    · cases h
      exact Movie.SeekStep.refl P s

/-- The loop "we sought too early" only returns once the landed timestamp has
reached the target. -/
theorem Movie.undershootLoop_reaches {env : SeekEnv} (ref : Int) :
    ∀ (fuel : Nat) (s s1 : Movie),
      Movie.undershootLoop env ref fuel s = some s1 →
      ref.tdiv 1000 ≤ s1.videoTimestamp := by
  intro fuel
  induction fuel with
  | zero =>
    intro s s1 h
    simp [Movie.undershootLoop] at h
  | succ n ih =>
    intro s s1 h
    simp only [Movie.undershootLoop] at h
    split at h
    · exact ih _ _ h
    · cases h
      omega

theorem Movie.seekAudio_step {P : Ev → Prop} {env : SeekEnv} (hA : env.Admits P)
    (s : Movie) (now position : Int) (anyFrame : Bool)
    (hP : ∀ id tg fl, P (Ev.seekFrame id tg fl)) :
    Movie.SeekStep P s (s.seekAudio env now position anyFrame) := by
  unfold Movie.seekAudio
  exact Movie.seekFrame_step hA s _ _ _ Track.audio (hP _ _ _)

theorem Movie.doFastApproximativeSeeking_step {P : Ev → Prop} {env : SeekEnv}
    (hA : env.Admits P) (s : Movie) (now position : Int)
    (hP : ∀ id tg fl, P (Ev.seekFrame id tg fl)) :
    Movie.SeekStep P s (s.doFastApproximativeSeeking env now position) := by
  unfold Movie.doFastApproximativeSeeking
  simp only
  split
  · have h12 := (Movie.seekFrame_step hA s s.videoStreamID
        (env.av_rescale_q (env.refPosition position) s.videoStreamID)
        (s.seekFlags now position)
        Track.video (hP _ _ _)).trans (Movie.loadNextImage_step hA _)
    split
    · exact h12.trans (Movie.seekFrame_step hA _ _ _ _ Track.video (hP _ _ _))
    · exact h12
  · split
    · exact Movie.seekAudio_step hA s now position false hP
    · exact Movie.SeekStep.refl P s

theorem Movie.doFastLossySeeking_step {P : Ev → Prop} {env : SeekEnv}
    (hA : env.Admits P) (s : Movie) (now position : Int)
    (hP : ∀ id tg fl, P (Ev.seekFrame id tg fl)) :
    Movie.SeekStep P s (s.doFastLossySeeking env now position) := by
  unfold Movie.doFastLossySeeking
  simp only
  split
  · exact (Movie.seekFrame_step hA s _ _ _ Track.video (hP _ _ _)).trans
      (Movie.loadNextImage_step hA _)
  · split
    · exact Movie.seekAudio_step hA s now position _ hP
    · exact Movie.SeekStep.refl P s

theorem Movie.doSlowExactSeeking_step {P : Ev → Prop} {env : SeekEnv}
    (hA : env.Admits P) (s : Movie) (fuel : Nat) (now position : Int)
    (hP : ∀ id tg fl, P (Ev.seekFrame id tg fl)) (s1 : Movie)
    (h : s.doSlowExactSeeking env fuel now position = some s1) :
    Movie.SeekStep P s s1 := by
  unfold Movie.doSlowExactSeeking at h
  simp only at h
  split at h
  · have h12 := (Movie.seekFrame_step hA s s.videoStreamID
        (env.av_rescale_q (env.refPosition position) s.videoStreamID)
        (s.seekFlags now position)
        Track.video (hP _ _ _)).trans (Movie.loadNextImage_step hA _)
    split at h
    · cases h
      exact h12.trans (Movie.seekFrame_step hA _ _ _ _ Track.video (hP _ _ _))
    · split at h
      · cases h
      · rename_i s3 h3
        have h23 : Movie.SeekStep P
            ((s.seekFrame env s.videoStreamID
              (env.av_rescale_q (env.refPosition position) s.videoStreamID)
              (s.seekFlags now position)
              Track.video).loadNextImage env) s3 := by
          split at h3
          · exact Movie.overshootLoop_step hA _ _ _ (fun tg => hP _ tg _) _ _ _ _ h3
          · cases h3
            exact Movie.SeekStep.refl P _
        split at h
        · exact (h12.trans h23).trans (Movie.undershootLoop_step hA _ _ _ _ h)
        · cases h
          exact h12.trans h23
  · split at h
    · cases h
      exact Movie.seekAudio_step hA s now position false hP
    · cases h
      exact Movie.SeekStep.refl P s

theorem Movie.seekToPosition_step {P : Ev → Prop} {env : SeekEnv}
    (hA : env.Admits P) (s : Movie) (fuel : Nat) (now position : Int)
    (method : SeekingMethod)
    (hP : ∀ id tg fl, P (Ev.seekFrame id tg fl)) (s1 : Movie)
    (h : s.seekToPosition env fuel now position method = some s1) :
    Movie.SeekStep P s s1 := by
  cases method
  · simp only [Movie.seekToPosition, Option.some.injEq] at h
    subst h
    exact Movie.doFastApproximativeSeeking_step hA s now position hP
  · simp only [Movie.seekToPosition, Option.some.injEq] at h
    subst h
    exact Movie.doFastLossySeeking_step hA s now position hP
  · exact Movie.doSlowExactSeeking_step hA s fuel now position hP s1 h

theorem Movie.isSeekEngine_admitted (env : SeekEnv) :
    env.Admits (fun e => e.isSeekEngine = true) :=
  ⟨rfl, fun _ _ _ _ _ => rfl, fun _ _ _ _ _ _ => rfl⟩

theorem Movie.callsSince_of_step {P : Ev → Prop} {s s1 : Movie}
    (h : Movie.SeekStep P s s1) : ∀ e ∈ s.callsSince s1, P e := by
  obtain ⟨evs, ts, hev, rfl⟩ := h
  simpa [Movie.callsSince] using hev

/-- Shape of the state after `setPlayingOffset`, with the seek it ran. -/
theorem Movie.setPlayingOffset_run {P : Ev → Prop} {env : SeekEnv}
    (hA : env.Admits P) (s : Movie) (fuel : Nat) (now nowRestart position : Int)
    (method : SeekingMethod)
    (hP : ∀ id tg fl, P (Ev.seekFrame id tg fl)) (s1 : Movie)
    (h : s.setPlayingOffset env fuel now nowRestart position method = some s1) :
    ∃ (evs : List Ev) (s3 : Movie), (∀ e ∈ evs, P e) ∧
      (s.afterPreSeek position).seekToPosition env fuel now position method = some s3 ∧
      s3.trace = s.trace ++ s.preSeekCalls position ++ evs ∧
      s1 = { s with
        audioQueue := if s.m_hasAudio then [] else s.audioQueue
        videoQueue := if s.m_hasVideo then [] else s.videoQueue
        videoTimestamp := s3.videoTimestamp
        m_progressAtPause := position
        m_overallTimer := nowRestart
        trace := s.trace ++ s.preSeekCalls position ++ evs ++ [Ev.timerRestart nowRestart]
          ++ s.postSeekCalls position } := by
  unfold Movie.setPlayingOffset at h
  simp only at h
  split at h
  · cases h
  · rename_i s3 h3
    obtain ⟨evs, ts, hev, hs3⟩ :=
      Movie.seekToPosition_step hA _ fuel now position method hP s3 h3
    refine ⟨evs, s3, hev, h3, ?_, ?_⟩
    · rw [hs3]
      cases ha : s.m_hasAudio <;> cases hv : s.m_hasVideo <;>
        simp [ IFAUDIO, IFVIDEO, Movie.trackPreSeek, Movie.preSeekCalls, ha, hv]
    · cases h
      rw [hs3]
      cases ha : s.m_hasAudio <;> cases hv : s.m_hasVideo <;>
        simp [ IFAUDIO, IFVIDEO, Movie.trackPreSeek, Movie.trackPostSeek, Movie.timerRestart,
          Movie.log, Movie.preSeekCalls, Movie.postSeekCalls, ha, hv]

theorem Movie.setPlayingOffset_fast_isSome (s : Movie) (env : SeekEnv) (fuel : Nat)
    (now nowRestart position : Int) (method : SeekingMethod)
    (hm : method ≠ SeekingMethod.SlowExactSeeking) :
    (s.setPlayingOffset env fuel now nowRestart position method).isSome = true := by
  cases method
  · simp [Movie.setPlayingOffset, Movie.seekToPosition]
  · simp [Movie.setPlayingOffset, Movie.seekToPosition]
  · exact absurd rfl hm

/-! ## Seeking: theorems -/

/-- C8 (counterexample): on the two-track scenario paused at 2 s, a lossy seek to 5 s
whose demuxer seek fails returns; the failure is reported, and the playing offset
read afterwards is 5 s, not the 2 s it was before the call. -/
theorem failed_seek_moves_playing_offset :
    (sceneBothPaused.setPlayingOffset envSeekFails 0 3000000 3000100 5000000
      SeekingMethod.FastLossySeeking).isSome = true ∧
    Ev.seekError ∈ ((sceneBothPaused.setPlayingOffset envSeekFails 0 3000000 3000100 5000000
      SeekingMethod.FastLossySeeking).getD Movie.new).trace ∧
    ((sceneBothPaused.setPlayingOffset envSeekFails 0 3000000 3000100 5000000
      SeekingMethod.FastLossySeeking).getD Movie.new).getPlayingOffset 4000000 = 5000000 ∧
    sceneBothPaused.getPlayingOffset 4000000 = 2000000 ∧
    ((sceneBothPaused.setPlayingOffset envSeekFails 0 3000000 3000100 5000000
      SeekingMethod.FastLossySeeking).getD Movie.new).getPlayingOffset 4000000 ≠
      sceneBothPaused.getPlayingOffset 4000000 := by
  decide

theorem Movie.setPlayingOffset_noVideo_isSome (s : Movie) (env : SeekEnv) (fuel : Nat)
    (now nowRestart position : Int) (method : SeekingMethod)
    (hv : s.m_hasVideo = false) :
    (s.setPlayingOffset env fuel now nowRestart position method).isSome = true := by
  cases method
  · simp [Movie.setPlayingOffset, Movie.seekToPosition]
  · simp [Movie.setPlayingOffset, Movie.seekToPosition]
  · cases ha : s.m_hasAudio <;>
      simp [Movie.setPlayingOffset, Movie.seekToPosition, Movie.doSlowExactSeeking,
        IFAUDIO, IFVIDEO, Movie.trackPreSeek, hv, ha]

/-- C8 (amended): for every seeking method, when the demuxer's seek calls fail
during `setPlayingOffset` and the call returns (it always returns for the two fast
methods, and for every method on media without a video track), no codec buffer is
flushed, the status is unchanged, and the playing offset read afterwards is the
requested position when not Playing and the requested position plus the time since
the timer restart when Playing, not the offset before the call. -/
theorem setPlayingOffset_after_failed_seek (s : Movie) (env : SeekEnv) (fuel : Nat)
    (now nowRestart position : Int) (method : SeekingMethod)
    (hfail : ∀ tr id tg fl, env.av_seek_frame tr id tg fl < 0) :
    (method ≠ SeekingMethod.SlowExactSeeking →
      (s.setPlayingOffset env fuel now nowRestart position method).isSome = true) ∧
    (s.m_hasVideo = false →
      (s.setPlayingOffset env fuel now nowRestart position method).isSome = true) ∧
    (∀ s1, s.setPlayingOffset env fuel now nowRestart position method = some s1 →
      (∀ e ∈ s.callsSince s1, ∀ t, e ≠ Ev.flushBuffers t) ∧
      s1.m_status = s.m_status ∧
      (∀ t, s1.getPlayingOffset t =
        if s.m_status = Status.Playing then position + (t - nowRestart) else position)) := by
  refine ⟨Movie.setPlayingOffset_fast_isSome s env fuel now nowRestart position method,
    Movie.setPlayingOffset_noVideo_isSome s env fuel now nowRestart position method, ?_⟩
  intro s1 h
  have hA : env.Admits (fun e => ∀ t, e ≠ Ev.flushBuffers t) := by
    refine ⟨fun t => by simp, fun _ _ _ _ _ t => by simp, ?_⟩
    intro tr id tg fl t hn
    exact absurd (hfail tr id tg fl) hn
  obtain ⟨evs, s3, hev, _, _, rfl⟩ :=
    Movie.setPlayingOffset_run hA s fuel now nowRestart position method
      (fun _ _ _ t => by simp) s1 h
  refine ⟨?_, rfl, ?_⟩
  · intro e he t
    simp only [Movie.callsSince, List.append_assoc, List.drop_left] at he
    rcases List.mem_append.mp he with h1 | h1
    · intro hc
      subst hc
      cases ha : s.m_hasAudio <;> cases hv : s.m_hasVideo <;>
        simp [Movie.preSeekCalls, ha, hv] at h1
    · rcases List.mem_append.mp h1 with h2 | h2
      · exact hev e h2 t
      · intro hc
        subst hc
        cases ha : s.m_hasAudio <;> cases hv : s.m_hasVideo <;>
          simp [Movie.postSeekCalls, ha, hv] at h2
  · intro t
    simp [Movie.getPlayingOffset, Movie.getElapsedTime]

/-- Witness of C8 (amended) on the paused two-track scenario (offset 2 s) with the
failing demuxer: after the approximative seek to 5 s the offset is 5 s, and after an
exact seek to 0 s, which returns, the offset is 0 s. -/
theorem setPlayingOffset_after_failed_seek_witness :
    (∀ tr id tg fl, envSeekFails.av_seek_frame tr id tg fl < 0) ∧
    ((sceneBothPaused.setPlayingOffset envSeekFails 0 3000000 3000100 5000000
      SeekingMethod.FastApproximativeSeeking).getD Movie.new).getPlayingOffset 9000000
      = 5000000 ∧
    sceneBothPaused.setPlayingOffset envSeekFails 1 3000000 3000100 0
      SeekingMethod.SlowExactSeeking =
      some ((sceneBothPaused.setPlayingOffset envSeekFails 1 3000000 3000100 0
        SeekingMethod.SlowExactSeeking).getD Movie.new) ∧
    ((sceneBothPaused.setPlayingOffset envSeekFails 1 3000000 3000100 0
      SeekingMethod.SlowExactSeeking).getD Movie.new).getPlayingOffset 9000000 = 0 := by
  have hfail : ∀ tr id tg fl, envSeekFails.av_seek_frame tr id tg fl < 0 := by
    intro tr id tg fl
    show (-1 : Int) < 0
    decide
  have hsome := (setPlayingOffset_after_failed_seek sceneBothPaused envSeekFails 0 3000000
    3000100 5000000 SeekingMethod.FastApproximativeSeeking hfail).1 (by decide)
  obtain ⟨s1, h1⟩ := Option.isSome_iff_exists.mp hsome
  have hslow : sceneBothPaused.setPlayingOffset envSeekFails 1 3000000 3000100 0
      SeekingMethod.SlowExactSeeking =
      some ((sceneBothPaused.setPlayingOffset envSeekFails 1 3000000 3000100 0
        SeekingMethod.SlowExactSeeking).getD Movie.new) := by decide
  refine ⟨hfail, ?_, hslow, ?_⟩
  · rw [h1]
    exact (((setPlayingOffset_after_failed_seek sceneBothPaused envSeekFails 0 3000000
      3000100 5000000 SeekingMethod.FastApproximativeSeeking hfail).2.2 s1 h1).2.2
        9000000).trans (by decide)
  · exact (((setPlayingOffset_after_failed_seek sceneBothPaused envSeekFails 1 3000000
      3000100 0 SeekingMethod.SlowExactSeeking hfail).2.2 _ hslow).2.2 9000000).trans
        (by decide)

/-! ## Seeking: the corrective retry and the correction passes -/

theorem Movie.seekFlags_no_any (s : Movie) (now position : Int) :
    (s.seekFlags now position).testBit 2 = false ∧
    (s.seekFlags now position ||| AVSEEK_FLAG_ANY).testBit 2 = true := by
  unfold Movie.seekFlags
  split <;> decide

theorem Movie.noAnyFrame_admitted (env : SeekEnv) :
    env.Admits (fun e => e.acceptsAnyFrame = false) :=
  ⟨rfl, fun _ _ _ _ _ => rfl, fun _ _ _ _ _ _ => rfl⟩

theorem Movie.not_retryIssued_of_step {s s1 : Movie}
    (h : Movie.SeekStep (fun e => e.acceptsAnyFrame = false) s s1) :
    ¬ s.retryIssued s1 := by
  rintro ⟨e, he, hany⟩
  have := Movie.callsSince_of_step h e he
  simp [hany] at this

theorem Movie.seekFrame_trace (s : Movie) (env : SeekEnv) (id tg : Int) (fl : Nat)
    (t : Track) :
    ∃ outcome, (outcome = Ev.seekError ∨ outcome = Ev.flushBuffers t) ∧
      s.seekFrame env id tg fl t =
        { s with trace := s.trace ++ [Ev.seekFrame id tg fl, outcome] } := by
  by_cases hr : env.av_seek_frame s.trace id tg fl < 0
  · exact ⟨Ev.seekError, Or.inl rfl, by simp [Movie.seekFrame, Movie.log, hr]⟩
  · exact ⟨Ev.flushBuffers t, Or.inr rfl, by simp [Movie.seekFrame, Movie.log, hr]⟩

theorem Movie.afterFirstLanding_step {P : Ev → Prop} {env : SeekEnv} (hA : env.Admits P)
    (s : Movie) (now position : Int)
    (hP : ∀ tg, P (Ev.seekFrame s.videoStreamID tg (s.seekFlags now position))) :
    Movie.SeekStep P s (s.afterFirstLanding env now position) :=
  (Movie.seekFrame_step hA s _ _ _ Track.video (hP _)).trans (Movie.loadNextImage_step hA _)

theorem Movie.doFastApproximativeSeeking_video (s : Movie) (env : SeekEnv)
    (now position : Int) (hv : s.m_hasVideo = true) :
    s.doFastApproximativeSeeking env now position =
      if absInt (s.firstLanding env now position - (env.refPosition position).tdiv 1000)
          > 20000 then
        (s.afterFirstLanding env now position).seekFrame env s.videoStreamID
          (env.av_rescale_q (env.refPosition position) s.videoStreamID)
          (s.seekFlags now position ||| AVSEEK_FLAG_ANY) Track.video
      else s.afterFirstLanding env now position := by
  simp [Movie.doFastApproximativeSeeking, Movie.firstLanding, Movie.afterFirstLanding, hv]

theorem Movie.doSlowExactSeeking_far (s : Movie) (env : SeekEnv) (fuel : Nat)
    (now position : Int) (hv : s.m_hasVideo = true)
    (hfar : absInt (s.firstLanding env now position - (env.refPosition position).tdiv 1000)
      > 20000) :
    s.doSlowExactSeeking env fuel now position =
      some (s.doFastApproximativeSeeking env now position) := by
  rw [Movie.doFastApproximativeSeeking_video s env now position hv, if_pos hfar]
  unfold Movie.firstLanding Movie.afterFirstLanding at hfar
  unfold Movie.afterFirstLanding
  simp only [Movie.doSlowExactSeeking, hv, if_true]
  rw [if_pos hfar]

/-- When the first landing is within 20000 ms of the target, `doSlowExactSeeking`
on a video track is the overshoot pass followed by the undershoot pass. -/
theorem Movie.doSlowExactSeeking_near (s : Movie) (env : SeekEnv) (fuel : Nat)
    (now position : Int) (hv : s.m_hasVideo = true)
    (hnear : ¬ absInt (s.firstLanding env now position - (env.refPosition position).tdiv 1000)
      > 20000)
    (s1 : Movie) (h : s.doSlowExactSeeking env fuel now position = some s1) :
    ∃ s3,
      (if (s.afterFirstLanding env now position).videoTimestamp
            > (env.refPosition position).tdiv 1000 then
          Movie.overshootLoop env s.videoStreamID (s.seekFlags now position)
            (env.refPosition position) fuel (s.afterFirstLanding env now position)
            (env.refPosition position)
        else some (s.afterFirstLanding env now position)) = some s3 ∧
      (if absInt ((env.refPosition position).tdiv 1000 - s3.videoTimestamp)
            > asMilliseconds (timeMul env.wantedFrameTime 3) then
          Movie.undershootLoop env (env.refPosition position) fuel s3
        else some s3) = some s1 := by
  unfold Movie.firstLanding Movie.afterFirstLanding at hnear
  unfold Movie.afterFirstLanding
  simp only [Movie.doSlowExactSeeking, hv, if_true] at h
  rw [if_neg hnear] at h
  split at h
  · cases h
  · rename_i s3 h3
    exact ⟨s3, h3, h⟩

theorem Movie.doSlowExactSeeking_near_step {P : Ev → Prop} {env : SeekEnv}
    (hA : env.Admits P) (s : Movie) (fuel : Nat)
    (now position : Int) (hv : s.m_hasVideo = true)
    (hnear : ¬ absInt (s.firstLanding env now position - (env.refPosition position).tdiv 1000)
      > 20000)
    (hP : ∀ tg, P (Ev.seekFrame s.videoStreamID tg (s.seekFlags now position)))
    (s1 : Movie) (h : s.doSlowExactSeeking env fuel now position = some s1) :
    Movie.SeekStep P s s1 := by
  obtain ⟨s3, h3, h1⟩ := Movie.doSlowExactSeeking_near s env fuel now position hv hnear s1 h
  have h03 : Movie.SeekStep P s s3 := by
    refine (Movie.afterFirstLanding_step hA s now position hP).trans ?_
    split at h3
    · exact Movie.overshootLoop_step hA _ _ _ hP _ _ _ _ h3
    · cases h3
      exact Movie.SeekStep.refl P _
  split at h1
  · exact h03.trans (Movie.undershootLoop_step hA _ _ _ _ h1)
  · cases h1
    exact h03

/-- C9 (counterexample): on the stopped video-only scenario an approximative seek to
0 s whose first landing is 1000 ms differs from the target by more than 20 ms, and
yet exactly one demuxer seek is issued: there is no retry.  The exact seek issues
no accept-any-frame seek either, only the rewind of its overshoot pass. -/
theorem no_retry_one_second_off_target :
    absInt (sceneVideoStopped.firstLanding (envLandsAt 1000) 0 0
      - ((envLandsAt 1000).refPosition 0).tdiv 1000) > 20 ∧
    sceneVideoStopped.callsSince
        (sceneVideoStopped.doFastApproximativeSeeking (envLandsAt 1000) 0 0) =
      [Ev.seekFrame 0 0 0, Ev.flushBuffers Track.video, Ev.loadNextImage] ∧
    sceneVideoStopped.callsSince
        ((sceneVideoStopped.doSlowExactSeeking (envLandsAt 1000) 3 0 0).getD Movie.new) =
      [Ev.seekFrame 0 0 0, Ev.flushBuffers Track.video, Ev.loadNextImage,
       Ev.seekFrame 0 (-1000000) 0, Ev.flushBuffers Track.video, Ev.loadNextImage] := by
  decide

/-- C9 (amended): on media with a video track, in `FastApproximativeSeeking` and in
`SlowExactSeeking`, a demuxer seek with the accept-any-frame flag is issued if and
only if the timestamp landed on after the first seek and forward decode differs from
the target by more than 20000 (both in milliseconds); when it is issued it is a
second seek to the same target with the same direction flag plus the
accept-any-frame flag, and it ends the call.  With no video track no such seek is
ever issued. -/
theorem corrective_retry_iff_beyond_20000 (s : Movie) (env : SeekEnv) (fuel : Nat)
    (now position : Int) :
    (s.m_hasVideo = true →
      (s.retryIssued (s.doFastApproximativeSeeking env now position) ↔
        absInt (s.firstLanding env now position - (env.refPosition position).tdiv 1000)
          > 20000) ∧
      (∀ s1, s.doSlowExactSeeking env fuel now position = some s1 →
        (s.retryIssued s1 ↔
          absInt (s.firstLanding env now position - (env.refPosition position).tdiv 1000)
            > 20000)) ∧
      (absInt (s.firstLanding env now position - (env.refPosition position).tdiv 1000)
          > 20000 →
        s.doSlowExactSeeking env fuel now position =
          some (s.doFastApproximativeSeeking env now position) ∧
        ∃ outcome, (outcome = Ev.seekError ∨ outcome = Ev.flushBuffers Track.video) ∧
          (s.doFastApproximativeSeeking env now position).trace =
            (s.afterFirstLanding env now position).trace ++
              [Ev.seekFrame s.videoStreamID
                (env.av_rescale_q (env.refPosition position) s.videoStreamID)
                (s.seekFlags now position ||| AVSEEK_FLAG_ANY), outcome])) ∧
    (s.m_hasVideo = false →
      ¬ s.retryIssued (s.doFastApproximativeSeeking env now position) ∧
      (∀ s1, s.doSlowExactSeeking env fuel now position = some s1 → ¬ s.retryIssued s1)) := by
  have hA := Movie.noAnyFrame_admitted env
  have hP : ∀ tg, (Ev.seekFrame s.videoStreamID tg (s.seekFlags now position)).acceptsAnyFrame
      = false := fun tg => (Movie.seekFlags_no_any s now position).1
  have hPa : ∀ tg, (Ev.seekFrame s.audioStreamID tg
      (s.seekFlags now position)).acceptsAnyFrame = false :=
    fun tg => (Movie.seekFlags_no_any s now position).1
  constructor
  · intro hv
    -- the retry, when far from the target
    have hfarShape : absInt (s.firstLanding env now position
          - (env.refPosition position).tdiv 1000) > 20000 →
        ∃ outcome, (outcome = Ev.seekError ∨ outcome = Ev.flushBuffers Track.video) ∧
          (s.doFastApproximativeSeeking env now position).trace =
            (s.afterFirstLanding env now position).trace ++
              [Ev.seekFrame s.videoStreamID
                (env.av_rescale_q (env.refPosition position) s.videoStreamID)
                (s.seekFlags now position ||| AVSEEK_FLAG_ANY), outcome] := by
      intro hfar
      rw [Movie.doFastApproximativeSeeking_video s env now position hv, if_pos hfar]
      obtain ⟨outcome, ho, heq⟩ := Movie.seekFrame_trace (s.afterFirstLanding env now position)
        env s.videoStreamID (env.av_rescale_q (env.refPosition position) s.videoStreamID)
        (s.seekFlags now position ||| AVSEEK_FLAG_ANY) Track.video
      exact ⟨outcome, ho, by rw [heq]⟩
    have hfast : s.retryIssued (s.doFastApproximativeSeeking env now position) ↔
        absInt (s.firstLanding env now position - (env.refPosition position).tdiv 1000)
          > 20000 := by
      constructor
      · intro hr
        by_contra hnear
        rw [Movie.doFastApproximativeSeeking_video s env now position hv, if_neg hnear] at hr
        exact Movie.not_retryIssued_of_step
          (Movie.afterFirstLanding_step hA s now position hP) hr
      · intro hfar
        obtain ⟨outcome, _, htr⟩ := hfarShape hfar
        obtain ⟨evs, ts, _, heq⟩ := Movie.afterFirstLanding_step hA s now position hP
        refine ⟨Ev.seekFrame s.videoStreamID
          (env.av_rescale_q (env.refPosition position) s.videoStreamID)
          (s.seekFlags now position ||| AVSEEK_FLAG_ANY), ?_,
          (Movie.seekFlags_no_any s now position).2⟩
        rw [Movie.callsSince, htr, heq]
        simp [List.append_assoc]
    refine ⟨hfast, ?_, ?_⟩
    · intro s1 h1
      by_cases hfar : absInt (s.firstLanding env now position
          - (env.refPosition position).tdiv 1000) > 20000
      · rw [Movie.doSlowExactSeeking_far s env fuel now position hv hfar] at h1
        cases h1
        exact hfast
      · constructor
        · intro hr
          exact absurd hr (Movie.not_retryIssued_of_step
            (Movie.doSlowExactSeeking_near_step hA s fuel now position hv hfar hP s1 h1))
        · intro h
          exact absurd h hfar
    · intro hfar
      exact ⟨Movie.doSlowExactSeeking_far s env fuel now position hv hfar, hfarShape hfar⟩
  · intro hv
    constructor
    · apply Movie.not_retryIssued_of_step
      by_cases ha : s.m_hasAudio = true
      · simp only [Movie.doFastApproximativeSeeking, hv, ha, if_true, Bool.false_eq_true,
          if_false, Movie.seekAudio]
        exact Movie.seekFrame_step hA s _ _ _ Track.audio (hPa _)
      · simp only [Movie.doFastApproximativeSeeking, hv, ha, Bool.false_eq_true, if_false]
        exact Movie.SeekStep.refl _ s
    · intro s1 h1
      apply Movie.not_retryIssued_of_step
      by_cases ha : s.m_hasAudio = true
      · simp only [Movie.doSlowExactSeeking, hv, ha, if_true, Bool.false_eq_true,
          if_false, Movie.seekAudio, Option.some.injEq] at h1
        subst h1
        exact Movie.seekFrame_step hA s _ _ _ Track.audio (hPa _)
      · simp only [Movie.doSlowExactSeeking, hv, ha, Bool.false_eq_true, if_false,
          Option.some.injEq] at h1
        subst h1
        exact Movie.SeekStep.refl _ s

/-- Witness of C9 (amended): with a first landing 30 s after the target the retry is
issued; with a first landing 1 s after the target it is not. -/
theorem corrective_retry_iff_beyond_20000_witness :
    sceneVideoStopped.m_hasVideo = true ∧
    sceneVideoStopped.retryIssued
      (sceneVideoStopped.doFastApproximativeSeeking (envLandsAt 30000) 0 0) ∧
    ¬ sceneVideoStopped.retryIssued
      (sceneVideoStopped.doFastApproximativeSeeking (envLandsAt 1000) 0 0) :=
  ⟨rfl,
    ((corrective_retry_iff_beyond_20000 sceneVideoStopped (envLandsAt 30000) 0 0 0).1 rfl).1.2
      (by decide),
    fun hr => absurd
      (((corrective_retry_iff_beyond_20000 sceneVideoStopped (envLandsAt 1000) 0 0 0).1
        rfl).1.1 hr) (by decide)⟩

/-- C10 (counterexample): on the stopped video-only scenario an exact seek to 60 s
whose first landing is 0 ms triggers the retry and returns with the landed
timestamp still at 0 ms, far more than three frame durations (3 x 40 ms) before the
target of 60000 ms: no correction pass has run. -/
theorem slowExact_skips_passes_after_retry :
    (sceneVideoStopped.doSlowExactSeeking (envLandsAt 0) 5 0 60000000).isSome = true ∧
    ((sceneVideoStopped.doSlowExactSeeking (envLandsAt 0) 5 0 60000000).getD
      Movie.new).videoTimestamp = 0 ∧
    ¬ (((envLandsAt 0).refPosition 60000000).tdiv 1000 - 3 * 40 ≤
      ((sceneVideoStopped.doSlowExactSeeking (envLandsAt 0) 5 0 60000000).getD
        Movie.new).videoTimestamp) ∧
    sceneVideoStopped.callsSince
        ((sceneVideoStopped.doSlowExactSeeking (envLandsAt 0) 5 0 60000000).getD Movie.new) =
      [Ev.seekFrame 0 60000000 0, Ev.flushBuffers Track.video, Ev.loadNextImage,
       Ev.seekFrame 0 60000000 4, Ev.flushBuffers Track.video] := by
  decide

theorem asMilliseconds_timeMul_le (w : Int) (hw : 0 ≤ w) :
    asMilliseconds (timeMul w 3) ≤ (w * 3).tdiv 1000 := by
  have hdiv : (w * 3).tdiv 1000 = w * 3 / 1000 :=
    Int.tdiv_eq_ediv (by omega) (by decide)
  rw [hdiv]
  by_cases hsmall : w * 3 / 1000 < 2147483648
  · have hw64 : wrapInt64 (w * 3) = w * 3 := by
      unfold wrapInt64
      omega
    have hdiv2 : (w * 3).tdiv 1000 = w * 3 / 1000 :=
      Int.tdiv_eq_ediv (by omega) (by decide)
    unfold asMilliseconds timeMul
    rw [hw64, hdiv2]
    unfold wrapInt32
    omega
  · unfold asMilliseconds
    generalize (timeMul w 3).tdiv 1000 = z
    unfold wrapInt32
    omega

/-- C10 (amended): for every `SlowExactSeeking` call on media with a video track:
when the correction retry is triggered (the first landing is more than 20000 ms from
the target) the call returns right after the retry, no correction pass runs and the
landed timestamp stays the first landing; when the retry is not triggered and the
call returns, the overshoot pass and then the undershoot pass have been applied
after the initial phase, so that on return the landed video timestamp is at least
the target minus the threshold the code computes (three frame durations in
milliseconds, narrowed to 32 bits, counted as zero when negative), hence for a
non-negative frame duration at least the target minus three nominal frame
durations, all in milliseconds. -/
theorem slowExact_lands_within_three_frames (s : Movie) (env : SeekEnv) (fuel : Nat)
    (now position : Int) (hv : s.m_hasVideo = true) :
    (absInt (s.firstLanding env now position - (env.refPosition position).tdiv 1000)
        > 20000 →
      ∃ outcome, (outcome = Ev.seekError ∨ outcome = Ev.flushBuffers Track.video) ∧
        s.doSlowExactSeeking env fuel now position =
          some { s.afterFirstLanding env now position with
            trace := (s.afterFirstLanding env now position).trace ++
              [Ev.seekFrame s.videoStreamID
                (env.av_rescale_q (env.refPosition position) s.videoStreamID)
                (s.seekFlags now position ||| AVSEEK_FLAG_ANY), outcome] }) ∧
    (¬ absInt (s.firstLanding env now position - (env.refPosition position).tdiv 1000)
        > 20000 →
      ∀ s1, s.doSlowExactSeeking env fuel now position = some s1 →
        (∃ s3,
          (if (s.afterFirstLanding env now position).videoTimestamp
                > (env.refPosition position).tdiv 1000 then
              Movie.overshootLoop env s.videoStreamID (s.seekFlags now position)
                (env.refPosition position) fuel (s.afterFirstLanding env now position)
                (env.refPosition position)
            else some (s.afterFirstLanding env now position)) = some s3 ∧
          (if absInt ((env.refPosition position).tdiv 1000 - s3.videoTimestamp)
                > asMilliseconds (timeMul env.wantedFrameTime 3) then
              Movie.undershootLoop env (env.refPosition position) fuel s3
            else some s3) = some s1) ∧
        (env.refPosition position).tdiv 1000
            - max 0 (asMilliseconds (timeMul env.wantedFrameTime 3))
          ≤ s1.videoTimestamp ∧
        (0 ≤ env.wantedFrameTime →
          (env.refPosition position).tdiv 1000 - (env.wantedFrameTime * 3).tdiv 1000
            ≤ s1.videoTimestamp)) := by
  constructor
  · intro hfar
    obtain ⟨outcome, ho, heq⟩ := Movie.seekFrame_trace (s.afterFirstLanding env now position)
      env s.videoStreamID (env.av_rescale_q (env.refPosition position) s.videoStreamID)
      (s.seekFlags now position ||| AVSEEK_FLAG_ANY) Track.video
    refine ⟨outcome, ho, ?_⟩
    rw [Movie.doSlowExactSeeking_far s env fuel now position hv hfar,
      Movie.doFastApproximativeSeeking_video s env now position hv, if_pos hfar, heq]
  · intro hnear s1 h
    obtain ⟨s3, h3, h1⟩ := Movie.doSlowExactSeeking_near s env fuel now position hv hnear s1 h
    have hmain : (env.refPosition position).tdiv 1000
        - max 0 (asMilliseconds (timeMul env.wantedFrameTime 3)) ≤ s1.videoTimestamp := by
      have h1c := h1
      split at h1c
      · have := Movie.undershootLoop_reaches _ _ _ _ h1c
        omega
      · rename_i hclose
        cases h1c
        unfold absInt at hclose
        split at hclose <;> omega
    refine ⟨⟨s3, h3, h1⟩, hmain, ?_⟩
    intro hft
    have hle := asMilliseconds_timeMul_le env.wantedFrameTime hft
    have hthr : 0 ≤ (env.wantedFrameTime * 3).tdiv 1000 :=
      Int.tdiv_nonneg (by omega) (by decide)
    omega

/-- Witness of C10 (amended): an exact seek to 7 s with a decoder that first lands
on 7010 ms, is rewound to 6800 ms and then steps to 6900 ms and 7000 ms returns on
7000 ms; with a frame time so long that the threshold wraps to a negative 32-bit
value, a first landing on 6000 ms is still stepped forward to 7000 ms. -/
theorem slowExact_lands_within_three_frames_witness :
    sceneVideoStopped.m_hasVideo = true ∧
    ((sceneVideoStopped.doSlowExactSeeking envSteps 5 0 7000000).getD
      Movie.new).videoTimestamp = 7000 ∧
    (envSteps.refPosition 7000000).tdiv 1000 - (envSteps.wantedFrameTime * 3).tdiv 1000
      ≤ ((sceneVideoStopped.doSlowExactSeeking envSteps 5 0 7000000).getD
        Movie.new).videoTimestamp ∧
    asMilliseconds (timeMul envHugeFrame.wantedFrameTime 3) = -2147483296 ∧
    ((sceneVideoStopped.doSlowExactSeeking envHugeFrame 5 0 7000000).getD
      Movie.new).videoTimestamp = 7000 :=
  ⟨rfl, by decide,
    (((slowExact_lands_within_three_frames sceneVideoStopped envSteps 5 0 7000000 rfl).2
      (by decide)
      ((sceneVideoStopped.doSlowExactSeeking envSteps 5 0 7000000).getD Movie.new)
      (by decide)).2.2 (by decide)),
    by decide, by decide⟩

/-! ## Seeking: the overshoot loop -/

theorem Movie.afterRewinds_shift (s : Movie) (env : SeekEnv) (id : Int) (fl : Nat)
    (T : Int) (k : Nat) :
    Movie.afterRewinds s env id fl T (k + 1) =
      Movie.afterRewinds (s.rewindOnce env id fl (T - 1000000)) env id fl (T - 1000000) k := by
  induction k with
  | zero =>
    simp [Movie.afterRewinds]
  | succ j ih =>
    have hpos : T - (((j + 1 : Nat) : Int) + 1) * 1000000
        = T - 1000000 - ((j : Int) + 1) * 1000000 := by
      push_cast
      ring
    calc Movie.afterRewinds s env id fl T (j + 1 + 1)
        = (Movie.afterRewinds s env id fl T (j + 1)).rewindOnce env id fl
            (T - (((j + 1 : Nat) : Int) + 1) * 1000000) := rfl
      _ = (Movie.afterRewinds (s.rewindOnce env id fl (T - 1000000)) env id fl
            (T - 1000000) j).rewindOnce env id fl
            (T - 1000000 - ((j : Int) + 1) * 1000000) := by rw [ih, hpos]
      _ = Movie.afterRewinds (s.rewindOnce env id fl (T - 1000000)) env id fl
            (T - 1000000) (j + 1) := rfl

theorem Movie.afterRewinds_trace (s : Movie) (env : SeekEnv) (id : Int) (fl : Nat)
    (T : Int) (k : Nat) :
    ∃ outcome, (outcome = Ev.seekError ∨ outcome = Ev.flushBuffers Track.video) ∧
      (Movie.afterRewinds s env id fl T (k + 1)).trace =
        (Movie.afterRewinds s env id fl T k).trace ++
          [Ev.seekFrame id (env.av_rescale_q (T - ((k : Int) + 1) * 1000000) id) fl,
           outcome, Ev.loadNextImage] := by
  obtain ⟨outcome, ho, heq⟩ := Movie.seekFrame_trace (Movie.afterRewinds s env id fl T k) env
    id (env.av_rescale_q (T - ((k : Int) + 1) * 1000000) id) fl Track.video
  refine ⟨outcome, ho, ?_⟩
  show ((Movie.afterRewinds s env id fl T k).rewindOnce env id fl
    (T - ((k : Int) + 1) * 1000000)).trace = _
  unfold Movie.rewindOnce
  rw [heq]
  simp [Movie.loadNextImage]

/-- The overshoot loop entered with `seek_pos = pos` runs some number `n` of
iterations between 1 and the bound, and with a budget of `fuel` iterations it returns
the state after `n` rewinds exactly when `n ≤ fuel`. -/
theorem Movie.overshootLoop_run (env : SeekEnv) (id : Int) (fl : Nat) (ref : Int) :
    ∀ (m : Nat) (pos : Int) (s : Movie), pos ≤ ((m : Int) + 1) * 1000000 →
      ∃ n : Nat, 1 ≤ n ∧ n ≤ overshootBound pos ∧
        (∀ k : Nat, 1 ≤ k → k < n →
          0 < pos - (k : Int) * 1000000 ∧
          ref.tdiv 1000 < (Movie.afterRewinds s env id fl pos k).videoTimestamp) ∧
        ((Movie.afterRewinds s env id fl pos n).videoTimestamp ≤ ref.tdiv 1000 ∨
          pos - (n : Int) * 1000000 ≤ 0) ∧
        (∀ fuel : Nat, Movie.overshootLoop env id fl ref fuel s pos =
          if n ≤ fuel then some (Movie.afterRewinds s env id fl pos n) else none) := by
  intro m
  induction m with
  | zero =>
    intro pos s hpos
    refine ⟨1, le_refl 1, by unfold overshootBound; omega, ?_, ?_, ?_⟩
    · intro k h1 h2
      omega
    · right
      omega
    · intro fuel
      cases fuel with
      | zero => simp [Movie.overshootLoop]
      | succ f =>
        have hc : ¬ (pos - AV_TIME_BASE > 0 ∧
            (s.rewindOnce env id fl (pos - AV_TIME_BASE)).videoTimestamp > ref.tdiv 1000) := by
          unfold AV_TIME_BASE
          omega
        unfold Movie.rewindOnce at hc
        simp only [Movie.overshootLoop]
        rw [if_neg hc]
        simp [Movie.afterRewinds, Movie.rewindOnce, AV_TIME_BASE]
  | succ j ih =>
    intro pos s hpos
    by_cases hc : (pos - AV_TIME_BASE > 0 ∧
        (s.rewindOnce env id fl (pos - AV_TIME_BASE)).videoTimestamp > ref.tdiv 1000)
    · have hpos1 : pos - 1000000 ≤ ((j : Int) + 1) * 1000000 := by
        push_cast at hpos
        omega
      obtain ⟨n1, h1, hb, hmid, hexit, hrun⟩ :=
        ih (pos - 1000000) (s.rewindOnce env id fl (pos - 1000000)) hpos1
      have hc1 := hc
      unfold AV_TIME_BASE at hc1
      refine ⟨n1 + 1, by omega, ?_, ?_, ?_, ?_⟩
      · unfold overshootBound at hb ⊢
        omega
      · intro k hk1 hk2
        obtain ⟨i, rfl⟩ : ∃ i, k = i + 1 := ⟨k - 1, by omega⟩
        rw [Movie.afterRewinds_shift]
        cases i with
        | zero =>
          refine ⟨by push_cast; omega, ?_⟩
          simpa [Movie.afterRewinds] using hc1.2
        | succ i0 =>
          have := hmid (i0 + 1) (by omega) (by omega)
          refine ⟨by push_cast at this ⊢; omega, this.2⟩
      · rw [Movie.afterRewinds_shift]
        rcases hexit with h | h
        · exact Or.inl h
        · right
          push_cast
          omega
      · intro fuel
        cases fuel with
        | zero => simp [Movie.overshootLoop]
        | succ f =>
          unfold Movie.rewindOnce at hc
          simp only [Movie.overshootLoop]
          rw [if_pos hc, Movie.afterRewinds_shift]
          have hr := hrun f
          unfold Movie.rewindOnce at hr ⊢
          unfold AV_TIME_BASE
          rw [hr]
          by_cases hf : n1 ≤ f
          · simp [hf]
          · simp [hf]
    · have hc1 := hc
      unfold AV_TIME_BASE at hc1
      refine ⟨1, le_refl 1, by unfold overshootBound; omega, ?_, ?_, ?_⟩
      · intro k h1 h2
        omega
      · have hs1 : Movie.afterRewinds s env id fl pos 1
            = s.rewindOnce env id fl (pos - 1000000) := by
          simp [Movie.afterRewinds]
        rw [hs1]
        by_cases hp : pos - 1000000 > 0
        · left
          have : ¬ (s.rewindOnce env id fl (pos - 1000000)).videoTimestamp > ref.tdiv 1000 :=
            fun h => hc1 ⟨hp, h⟩
          omega
        · right
          push_cast
          omega
      · intro fuel
        cases fuel with
        | zero => simp [Movie.overshootLoop]
        | succ f =>
          unfold Movie.rewindOnce at hc
          simp only [Movie.overshootLoop]
          rw [if_neg hc]
          simp [Movie.afterRewinds, Movie.rewindOnce, AV_TIME_BASE]

/-- C11: the overshoot-correction loop of `SlowExactSeeking`, run for a target of `T`
microseconds from any state and with any decoder, performs a number `n` of
iterations with 1 ≤ n ≤ max(1, ceil(T / 1000000)): it returns as soon as its budget
covers `n` iterations (so always with a budget of the bound), and then in the state
after `n` rewinds; its k-th iteration re-seeks to `T` minus `k` seconds, then decodes
forward; before the last iteration the rewound target was still positive and the
landed timestamp still after the target; on exit the landed timestamp is at or
before the target or the rewound target is at or before zero. -/
theorem overshoot_loop_terminates (s : Movie) (env : SeekEnv) (videoStreamID : Int)
    (flags : Nat) (T : Int) :
    ∃ n : Nat, 1 ≤ n ∧ n ≤ overshootBound T ∧
      (∀ fuel : Nat, Movie.overshootLoop env videoStreamID flags T fuel s T =
        if n ≤ fuel then some (Movie.afterRewinds s env videoStreamID flags T n) else none) ∧
      (∀ fuel : Nat, overshootBound T ≤ fuel →
        Movie.overshootLoop env videoStreamID flags T fuel s T =
          some (Movie.afterRewinds s env videoStreamID flags T n)) ∧
      (∀ k : Nat, k < n →
        ∃ outcome, (outcome = Ev.seekError ∨ outcome = Ev.flushBuffers Track.video) ∧
          (Movie.afterRewinds s env videoStreamID flags T (k + 1)).trace =
            (Movie.afterRewinds s env videoStreamID flags T k).trace ++
              [Ev.seekFrame videoStreamID
                (env.av_rescale_q (T - ((k : Int) + 1) * 1000000) videoStreamID) flags,
               outcome, Ev.loadNextImage]) ∧
      (∀ k : Nat, 1 ≤ k → k < n →
        0 < T - (k : Int) * 1000000 ∧
        T.tdiv 1000 < (Movie.afterRewinds s env videoStreamID flags T k).videoTimestamp) ∧
      ((Movie.afterRewinds s env videoStreamID flags T n).videoTimestamp ≤ T.tdiv 1000 ∨
        T - (n : Int) * 1000000 ≤ 0) := by
  have hm : T ≤ ((T.toNat : Int) + 1) * 1000000 := by
    omega
  obtain ⟨n, h1, hb, hmid, hexit, hrun⟩ :=
    Movie.overshootLoop_run env videoStreamID flags T T.toNat T s hm
  refine ⟨n, h1, hb, hrun, ?_, ?_, hmid, hexit⟩
  · intro fuel hf
    rw [hrun fuel, if_pos (hb.trans hf)]
  · intro k _
    exact Movie.afterRewinds_trace s env videoStreamID flags T k

/-- Witness of C11: for a target of 2.5 s the bound is 3, and with a decoder that
always lands after the target the loop returns within a budget of 3 iterations. -/
theorem overshoot_loop_terminates_witness :
    overshootBound 2500000 = 3 ∧
    (Movie.overshootLoop (envLandsAt 9999) 0 0 2500000 3 sceneVideoStopped
      2500000).isSome = true := by
  obtain ⟨n, _, _, _, hfuel, _⟩ :=
    overshoot_loop_terminates sceneVideoStopped (envLandsAt 9999) 0 0 2500000
  refine ⟨by decide, ?_⟩
  rw [hfuel 3 (by decide)]
  rfl

/-! ## The watch thread -/

theorem Movie.launches_refl (s : Movie) : Movie.Launches s s 0 :=
  ⟨rfl, [], by simp, rfl⟩

theorem Movie.launches_trans {a b c : Movie} {m n : Nat}
    (hab : Movie.Launches a b m) (hbc : Movie.Launches b c n) :
    Movie.Launches a c (m + n) := by
  obtain ⟨h1, e1, ht1, hc1⟩ := hab
  obtain ⟨h2, e2, ht2, hc2⟩ := hbc
  refine ⟨by omega, e1 ++ e2, by rw [ht2, ht1, List.append_assoc], ?_⟩
  rw [List.count_append, hc1, hc2]

theorem Movie.launches_count {s s1 : Movie} {n : Nat} (h : Movie.Launches s s1 n) :
    (s.callsSince s1).count Ev.watchLaunch = n := by
  obtain ⟨_, evs, ht, hc⟩ := h
  simp [Movie.callsSince, ht, hc]

theorem Movie.launches_of_calls {s s1 : Movie} {n : Nat}
    (h1 : s1.watchLaunches = s.watchLaunches + n)
    (h2 : s1.trace = s.trace ++ s.callsSince s1)
    (h3 : (s.callsSince s1).count Ev.watchLaunch = n) : Movie.Launches s s1 n :=
  ⟨h1, s.callsSince s1, h2, h3⟩

theorem Movie.play_launches (s : Movie) (now : Int) :
    Movie.Launches s (s.play now) (s.isStoppedToPlaying (s.play now)) := by
  apply Movie.launches_of_calls <;>
    cases hs : s.m_status <;> cases ha : s.m_hasAudio <;> cases hv : s.m_hasVideo <;>
    simp [Movie.play, Movie.isStoppedToPlaying, Movie.callsSince, Movie.timerRestart,
      Movie.trackPlay, Movie.condAssign, Movie.condRestore, Movie.watchLaunch, Movie.log,
      IFAUDIO, IFVIDEO, hs, ha, hv]

theorem Movie.pause_launches (s : Movie) (now audioOffset : Int) :
    Movie.Launches s (s.pause now audioOffset) 0 ∧
    s.isStoppedToPlaying (s.pause now audioOffset) = 0 := by
  refine ⟨?_, ?_⟩
  · apply Movie.launches_of_calls <;>
      cases hs : s.m_status <;> cases ha : s.m_hasAudio <;> cases hv : s.m_hasVideo <;>
      simp [Movie.pause, Movie.callsSince, Movie.trackPause, Movie.log, Movie.hasAudioTrack,
        IFAUDIO, IFVIDEO, hs, ha, hv]
  · cases hs : s.m_status <;> cases ha : s.m_hasAudio <;> cases hv : s.m_hasVideo <;>
      simp [Movie.pause, Movie.isStoppedToPlaying, Movie.trackPause, Movie.log,
        Movie.hasAudioTrack, IFAUDIO, IFVIDEO, hs, ha, hv]

theorem Movie.internalStop_launches (s : Movie) (calledFromWatchThread : Bool) :
    Movie.Launches s (s.internalStop calledFromWatchThread) 0 ∧
    s.isStoppedToPlaying (s.internalStop calledFromWatchThread) = 0 := by
  refine ⟨?_, ?_⟩
  · apply Movie.launches_of_calls <;>
      cases hs : s.m_status <;> cases ha : s.m_hasAudio <;> cases hv : s.m_hasVideo <;>
      cases calledFromWatchThread <;>
      simp [Movie.internalStop, Movie.callsSince, Movie.trackStop, Movie.condInvalidate,
        Movie.setEofReached, Movie.log, IFAUDIO, IFVIDEO, hs, ha, hv]
  · cases hs : s.m_status <;> cases ha : s.m_hasAudio <;> cases hv : s.m_hasVideo <;>
      cases calledFromWatchThread <;>
      simp [Movie.internalStop, Movie.isStoppedToPlaying, Movie.trackStop,
        Movie.condInvalidate, Movie.setEofReached, Movie.log, IFAUDIO, IFVIDEO, hs, ha, hv]

theorem Movie.starvation_launches (s : Movie) (a v : Bool) :
    Movie.Launches s (s.starvation a v) 0 ∧ s.isStoppedToPlaying (s.starvation a v) = 0 := by
  refine ⟨?_, ?_⟩
  · apply Movie.launches_of_calls <;>
      cases ha : s.m_hasAudio <;> cases hv : s.m_hasVideo <;> cases a <;> cases v <;>
      simp [Movie.starvation, Movie.callsSince, Movie.condAssign, ha, hv]
  · cases hs : s.m_status <;> cases ha : s.m_hasAudio <;> cases hv : s.m_hasVideo <;>
      cases a <;> cases v <;>
      simp [Movie.starvation, Movie.isStoppedToPlaying, Movie.condAssign, hs, ha, hv]

theorem Movie.close_launches (s : Movie) :
    Movie.Launches s s.close 0 ∧ s.close.m_status = Status.Stopped := by
  refine ⟨?_, ?_⟩
  · apply Movie.launches_of_calls <;>
      cases ha : s.m_hasAudio <;> cases hv : s.m_hasVideo <;> cases hc : s.m_avFormatCtx <;>
      simp [Movie.close, Movie.callsSince, Movie.trackClose, IFAUDIO, IFVIDEO, ha, hv, hc]
  · simp [Movie.close]

theorem Movie.watch_launches (s : Movie) (waitResult : Bool) :
    Movie.Launches s (s.watch waitResult) 0 ∧
    s.isStoppedToPlaying (s.watch waitResult) = 0 := by
  cases waitResult
  · refine ⟨Movie.launches_refl s, ?_⟩
    cases hs : s.m_status <;> simp [Movie.watch, Movie.isStoppedToPlaying, hs]
  · exact Movie.internalStop_launches s true

theorem Movie.log_launches (s : Movie) (e : Ev) (he : e ≠ Ev.watchLaunch) :
    Movie.Launches s (s.log e) 0 ∧ (s.log e).m_status = s.m_status := by
  refine ⟨⟨rfl, [e], rfl, ?_⟩, rfl⟩
  rw [List.count_eq_zero]
  simpa using he.symm

theorem Movie.saveFrame_launches (s : Movie) (frame : AVPacket) :
    Movie.Launches s (s.saveFrame frame).2 0 ∧
    (s.saveFrame frame).2.m_status = s.m_status := by
  unfold Movie.saveFrame
  split
  · exact ⟨⟨rfl, [Ev.pushFrame Track.audio frame], rfl, by simp⟩, rfl⟩
  · split
    · exact ⟨⟨rfl, [Ev.pushFrame Track.video frame], rfl, by simp⟩, rfl⟩
    · exact ⟨Movie.launches_refl s, rfl⟩

theorem Movie.readFrameAndQueue_launches (s : Movie) (res : Int) (pkt : AVPacket) :
    Movie.Launches s (s.readFrameAndQueue res pkt).2 0 ∧
    (s.readFrameAndQueue res pkt).2.m_status = s.m_status := by
  have hlog := Movie.log_launches s Ev.readFrame (by simp)
  unfold Movie.readFrameAndQueue
  by_cases he : s.getEofReached = true
  · rw [if_pos he]
    exact ⟨Movie.launches_refl s, rfl⟩
  · rw [if_neg he]
    simp only
    by_cases hr : res < 0
    · rw [if_pos hr]
      have hfree := Movie.log_launches ((s.log Ev.readFrame).setEofReached true)
        (Ev.freePacket pkt) (by simp)
      have hset : Movie.Launches (s.log Ev.readFrame)
          ((s.log Ev.readFrame).setEofReached true) 0 := ⟨rfl, [], by simp [Movie.setEofReached], rfl⟩
      exact ⟨Movie.launches_trans (Movie.launches_trans hlog.1 hset) hfree.1, rfl⟩
    · rw [if_neg hr]
      have hsave := Movie.saveFrame_launches (s.log Ev.readFrame) pkt
      generalize (s.log Ev.readFrame).saveFrame pkt = r at hsave ⊢
      have h02 := Movie.launches_trans hlog.1 hsave.1
      cases hr1 : r.1
      · have hfree := Movie.log_launches r.2 (Ev.freePacket pkt) (by simp)
        rw [if_pos (by simp)]
        exact ⟨Movie.launches_trans h02 hfree.1, by rw [hfree.2, hsave.2, hlog.2]⟩
      · rw [if_neg (by simp)]
        exact ⟨h02, by rw [hsave.2, hlog.2]⟩

theorem Movie.openFromFile_launches (s : Movie) (env : OpenEnv) :
    Movie.Launches s (s.openFromFile env).2 0 ∧
    (s.openFromFile env).2.m_status = Status.Stopped := by
  have h02 : Movie.Launches s s.stop.close 0 :=
    Movie.launches_trans (Movie.internalStop_launches s false).1 (Movie.close_launches s.stop).1
  have hst : s.stop.close.m_status = Status.Stopped := (Movie.close_launches s.stop).2
  have hrest : Movie.Launches s.stop.close (s.openFromFile env).2 0 ∧
      (s.openFromFile env).2.m_status = Status.Stopped := by
    unfold Movie.openFromFile
    simp only
    generalize s.stop.close = s2 at hst ⊢
    by_cases ho : env.openErr ≠ 0
    · rw [if_pos ho]
      refine ⟨Movie.launches_of_calls ?_ ?_ ?_, ?_⟩ <;>
        simp [Movie.log, Movie.callsSince, hst]
    · rw [if_neg ho]
      by_cases hf : env.findErr < 0
      · rw [if_pos hf]
        have hc := Movie.close_launches
          (({ s2 with m_avFormatCtx := decide (env.openErr = 0),
                      trace := s2.trace ++ [Ev.openInput] }.log Ev.findStreamInfo).log
            (Ev.outputError env.findErr))
        refine ⟨Movie.launches_trans (m := 0) (n := 0)
          (Movie.launches_of_calls ?_ ?_ ?_) hc.1, hc.2⟩ <;>
          simp [Movie.log, Movie.callsSince]
      · rw [if_neg hf]
        cases hvf : env.videoFound <;>
          refine ⟨Movie.launches_of_calls ?_ ?_ ?_, ?_⟩ <;>
          simp [Movie.log, Movie.callsSince, hst]
  exact ⟨Movie.launches_trans h02 hrest.1, hrest.2⟩

theorem Movie.setPlayingOffset_launches (s : Movie) (env : SeekEnv) (fuel : Nat)
    (now nowRestart position : Int) (method : SeekingMethod) (s1 : Movie)
    (h : s.setPlayingOffset env fuel now nowRestart position method = some s1) :
    Movie.Launches s s1 0 ∧ s1.m_status = s.m_status := by
  have hA : env.Admits (fun e => e ≠ Ev.watchLaunch) :=
    ⟨by simp, fun _ _ _ _ _ => by simp, fun _ _ _ _ _ _ => by simp⟩
  obtain ⟨evs, s3, hev, _, _, rfl⟩ :=
    Movie.setPlayingOffset_run hA s fuel now nowRestart position method
      (fun _ _ _ => by simp) s1 h
  refine ⟨⟨rfl, s.preSeekCalls position ++ evs ++ [Ev.timerRestart nowRestart]
    ++ s.postSeekCalls position, by simp [List.append_assoc], ?_⟩, rfl⟩
  rw [List.count_eq_zero]
  intro hmem
  simp only [List.mem_append] at hmem
  rcases hmem with ((h1 | h1) | h1) | h1
  · cases ha : s.m_hasAudio <;> cases hv : s.m_hasVideo <;>
      simp [Movie.preSeekCalls, ha, hv] at h1
  · exact hev _ h1 rfl
  · simp at h1
  · cases ha : s.m_hasAudio <;> cases hv : s.m_hasVideo <;>
      simp [Movie.postSeekCalls, ha, hv] at h1

theorem Movie.isStoppedToPlaying_of_status_eq {s s1 : Movie}
    (h : s1.m_status = s.m_status) : s.isStoppedToPlaying s1 = 0 := by
  cases hs : s.m_status <;> simp [Movie.isStoppedToPlaying, h, hs]

theorem Movie.isStoppedToPlaying_of_stopped {s s1 : Movie}
    (h : s1.m_status = Status.Stopped) : s.isStoppedToPlaying s1 = 0 := by
  simp [Movie.isStoppedToPlaying, h]

/-- Every operation other than `play` launches nothing and is no transition from
Stopped to Playing. -/
theorem Movie.step_other_launches (s : Movie) (op : Op) (s1 : Movie)
    (h : s.step op = some s1) (hop : ∀ now, op ≠ Op.play now) :
    Movie.Launches s s1 0 ∧ s.isStoppedToPlaying s1 = 0 := by
  cases op with
  | play now => exact absurd rfl (hop now)
  | pause now audioOffset =>
    simp only [Movie.step, Option.some.injEq] at h
    subst h
    exact Movie.pause_launches s now audioOffset
  | stop =>
    simp only [Movie.step, Option.some.injEq] at h
    subst h
    exact Movie.internalStop_launches s false
  | watch waitResult =>
    simp only [Movie.step, Option.some.injEq] at h
    subst h
    exact Movie.watch_launches s waitResult
  | setPlayingOffset env fuel now nowRestart position method =>
    simp only [Movie.step] at h
    have := Movie.setPlayingOffset_launches s env fuel now nowRestart position method s1 h
    exact ⟨this.1, Movie.isStoppedToPlaying_of_status_eq this.2⟩
  | readFrameAndQueue res pkt =>
    simp only [Movie.step, Option.some.injEq] at h
    subst h
    have := Movie.readFrameAndQueue_launches s res pkt
    exact ⟨this.1, Movie.isStoppedToPlaying_of_status_eq this.2⟩
  | starvation a v =>
    simp only [Movie.step, Option.some.injEq] at h
    subst h
    exact Movie.starvation_launches s a v
  | close =>
    simp only [Movie.step, Option.some.injEq] at h
    subst h
    have := Movie.close_launches s
    exact ⟨this.1, Movie.isStoppedToPlaying_of_stopped this.2⟩
  | openFromFile env =>
    simp only [Movie.step, Option.some.injEq] at h
    subst h
    have := Movie.openFromFile_launches s env
    exact ⟨this.1, Movie.isStoppedToPlaying_of_stopped this.2⟩

theorem Movie.step_launches (s : Movie) (op : Op) (s1 : Movie)
    (h : s.step op = some s1) : Movie.Launches s s1 (s.isStoppedToPlaying s1) := by
  by_cases hop : ∃ now, op = Op.play now
  · obtain ⟨now, rfl⟩ := hop
    simp only [Movie.step, Option.some.injEq] at h
    subst h
    exact Movie.play_launches s now
  · have := Movie.step_other_launches s op s1 h (fun now hc => hop ⟨now, hc⟩)
    rw [this.2]
    exact this.1

theorem Movie.run_launches (ops : List Op) :
    ∀ (s s1 : Movie), s.run ops = some s1 →
      Movie.Launches s s1 (s.stoppedToPlaying ops) := by
  induction ops with
  | nil =>
    intro s s1 h
    simp only [Movie.run, Option.some.injEq] at h
    subst h
    exact Movie.launches_refl s
  | cons op rest ih =>
    intro s s1 h
    simp only [Movie.run] at h
    cases hstep : s.step op with
    | none => simp [hstep] at h
    | some s2 =>
      simp only [hstep] at h
      have h2 := ih s2 s1 h
      have h1 := Movie.step_launches s op s2 hstep
      simpa [Movie.stoppedToPlaying, hstep] using Movie.launches_trans h1 h2

/-- C12: `play()` from Stopped restarts the timer, commands the existing
controllers, resets the stop condition to 0, re-arms it and launches the watch
thread; `play()` from Paused restarts the timer and resumes the existing controllers
and does nothing else; `play()` launches the watch thread if and only if the status
before the call is Stopped.  No other operation (pause, stop, the watch thread's own
stop, setPlayingOffset, readFrameAndQueue, starvation, close, openFromFile) launches
it.  Hence over any sequence of operations the number of launches, by the counter
and by the trace, equals the number of transitions from Stopped to Playing. -/
theorem watchdog_launched_only_from_stopped (s : Movie) :
    (∀ now, s.m_status = Status.Stopped →
      s.play now =
        { s with
          m_status := Status.Playing
          m_overallTimer := now
          condValue := 0
          condValid := true
          watchLaunches := s.watchLaunches + 1
          trace := s.trace ++ [Ev.timerRestart now] ++ s.playCalls
            ++ [Ev.condSet 0, Ev.condRestore, Ev.watchLaunch] }) ∧
    (∀ now, s.m_status = Status.Paused →
      s.play now =
        { s with
          m_status := Status.Playing
          m_overallTimer := now
          trace := s.trace ++ [Ev.timerRestart now] ++ s.playCalls }) ∧
    (∀ now,
      ((s.play now).watchLaunches = s.watchLaunches + 1 ↔ s.m_status = Status.Stopped) ∧
      (Ev.watchLaunch ∈ s.callsSince (s.play now) ↔ s.m_status = Status.Stopped) ∧
      (s.m_status ≠ Status.Stopped → (s.play now).watchLaunches = s.watchLaunches)) ∧
    (∀ op s1, s.step op = some s1 → (∀ now, op ≠ Op.play now) →
      s1.watchLaunches = s.watchLaunches ∧ Ev.watchLaunch ∉ s.callsSince s1) ∧
    (∀ ops s1, s.run ops = some s1 →
      s1.watchLaunches = s.watchLaunches + s.stoppedToPlaying ops ∧
      (s.callsSince s1).count Ev.watchLaunch = s.stoppedToPlaying ops) := by
  refine ⟨?_, ?_, ?_, ?_, ?_⟩
  · intro now hs
    cases ha : s.m_hasAudio <;> cases hv : s.m_hasVideo <;>
      simp [Movie.play, Movie.playCalls, Movie.timerRestart, Movie.trackPlay,
        Movie.condAssign, Movie.condRestore, Movie.watchLaunch, Movie.log,
        IFAUDIO, IFVIDEO, hs, ha, hv]
  · intro now hs
    cases ha : s.m_hasAudio <;> cases hv : s.m_hasVideo <;>
      simp [Movie.play, Movie.playCalls, Movie.timerRestart, Movie.trackPlay, Movie.log,
        IFAUDIO, IFVIDEO, hs, ha, hv]
  · intro now
    cases hs : s.m_status <;> cases ha : s.m_hasAudio <;> cases hv : s.m_hasVideo <;>
      simp [Movie.play, Movie.callsSince, Movie.timerRestart, Movie.trackPlay,
        Movie.condAssign, Movie.condRestore, Movie.watchLaunch, Movie.log,
        IFAUDIO, IFVIDEO, hs, ha, hv]
  · intro op s1 h hop
    have hl := (Movie.step_other_launches s op s1 h hop).1
    exact ⟨hl.1, List.count_eq_zero.mp (Movie.launches_count hl)⟩
  · intro ops s1 h
    have hl := Movie.run_launches ops s s1 h
    exact ⟨hl.1, Movie.launches_count hl⟩

/-- Witness of C12: over play, pause, play, stop, play from a stopped video-only
movie there are two transitions from Stopped to Playing and two launches. -/
theorem watchdog_launched_only_from_stopped_witness :
    sceneVideoStopped.stoppedToPlaying opsTwoSessions = 2 ∧
    ((sceneVideoStopped.run opsTwoSessions).getD Movie.new).watchLaunches = 2 :=
  ⟨by decide,
    ((watchdog_launched_only_from_stopped sceneVideoStopped).2.2.2.2 opsTwoSessions
      ((sceneVideoStopped.run opsTwoSessions).getD Movie.new) (by decide)).1.trans
      (by decide)⟩

/-! ## Seeking: the calls of `setPlayingOffset` -/

theorem Movie.seekFrame_eq (s : Movie) (env : SeekEnv) (id tg : Int) (fl : Nat)
    (t : Track) :
    s.seekFrame env id tg fl t =
      { s with trace := s.trace ++ [Ev.seekFrame id tg fl, seekOutcome env s.trace id tg fl t] } := by
  by_cases hr : env.av_seek_frame s.trace id tg fl < 0
  · simp [Movie.seekFrame, seekOutcome, Movie.log, hr]
  · simp [Movie.seekFrame, seekOutcome, Movie.log, hr]

theorem Movie.afterFirstLanding_trace (s : Movie) (env : SeekEnv) (now position : Int) :
    (s.afterFirstLanding env now position).trace =
      s.trace ++
        [Ev.seekFrame s.videoStreamID
           (env.av_rescale_q (env.refPosition position) s.videoStreamID)
           (s.seekFlags now position),
         seekOutcome env s.trace s.videoStreamID
           (env.av_rescale_q (env.refPosition position) s.videoStreamID)
           (s.seekFlags now position) Track.video,
         Ev.loadNextImage] := by
  unfold Movie.afterFirstLanding
  rw [Movie.seekFrame_eq]
  simp [Movie.loadNextImage]

theorem Movie.doSlowExactSeeking_from_landing {P : Ev → Prop} {env : SeekEnv}
    (hA : env.Admits P) (s : Movie) (fuel : Nat) (now position : Int)
    (hv : s.m_hasVideo = true) (hP : ∀ id tg fl, P (Ev.seekFrame id tg fl))
    (s1 : Movie) (h : s.doSlowExactSeeking env fuel now position = some s1) :
    Movie.SeekStep P (s.afterFirstLanding env now position) s1 := by
  by_cases hfar : absInt (s.firstLanding env now position
      - (env.refPosition position).tdiv 1000) > 20000
  · rw [Movie.doSlowExactSeeking_far s env fuel now position hv hfar,
      Movie.doFastApproximativeSeeking_video s env now position hv, if_pos hfar] at h
    cases h
    exact Movie.seekFrame_step hA _ _ _ _ Track.video (hP _ _ _)
  · obtain ⟨s3, h3, h1⟩ := Movie.doSlowExactSeeking_near s env fuel now position hv hfar s1 h
    have h03 : Movie.SeekStep P (s.afterFirstLanding env now position) s3 := by
      split at h3
      · exact Movie.overshootLoop_step hA _ _ _ (fun tg => hP _ tg _) _ _ _ _ h3
      · cases h3
        exact Movie.SeekStep.refl P _
    split at h1
    · exact h03.trans (Movie.undershootLoop_step hA _ _ _ _ h1)
    · cases h1
      exact h03

/-- Every seeking method starts with the calls of `firstSeekCalls`; what follows is
made of seek-engine calls, is empty for `FastLossySeeking` and without a video
track, and is the corrective retry for `FastApproximativeSeeking` on a video
track. -/
theorem Movie.seekToPosition_first (x : Movie) (env : SeekEnv) (fuel : Nat)
    (now position : Int) (method : SeekingMethod) (s3 : Movie)
    (h : x.seekToPosition env fuel now position method = some s3) :
    ∃ rest : List Ev, (∀ e ∈ rest, e.isSeekEngine = true) ∧
      s3.trace = x.trace ++ x.firstSeekCalls env now position method ++ rest ∧
      (method = SeekingMethod.FastLossySeeking ∨ x.m_hasVideo = false → rest = []) ∧
      (method = SeekingMethod.FastApproximativeSeeking → x.m_hasVideo = true →
        rest = x.retryCalls env now position) := by
  by_cases hv : x.m_hasVideo = true
  · cases method with
    | FastApproximativeSeeking =>
      simp only [Movie.seekToPosition, Option.some.injEq] at h
      subst h
      refine ⟨x.retryCalls env now position, ?_, ?_, ?_, fun _ _ => rfl⟩
      · intro e he
        unfold Movie.retryCalls at he
        split at he
        · simp only [List.mem_cons, List.mem_singleton, List.not_mem_nil, or_false] at he
          rcases he with rfl | rfl
          · rfl
          · unfold seekOutcome
            split <;> rfl
        · simp at he
      · rw [Movie.doFastApproximativeSeeking_video x env now position hv]
        unfold Movie.retryCalls
        by_cases hfar : absInt (x.firstLanding env now position
            - (env.refPosition position).tdiv 1000) > 20000
        · rw [if_pos hfar, if_pos hfar, Movie.seekFrame_eq]
          simp [Movie.afterFirstLanding_trace, Movie.firstSeekCalls, Movie.methodFlags, hv]
        · rw [if_neg hfar, if_neg hfar]
          simp [Movie.afterFirstLanding_trace, Movie.firstSeekCalls, Movie.methodFlags, hv]
      · intro hc
        rcases hc with hc | hc
        · cases hc
        · rw [hv] at hc
          cases hc
    | FastLossySeeking =>
      simp only [Movie.seekToPosition, Option.some.injEq] at h
      subst h
      refine ⟨[], by simp, ?_, fun _ => rfl, fun hc => by cases hc⟩
      simp only [Movie.doFastLossySeeking, hv, if_true]
      rw [Movie.seekFrame_eq]
      simp [Movie.loadNextImage, Movie.firstSeekCalls, Movie.methodFlags, hv]
    | SlowExactSeeking =>
      simp only [Movie.seekToPosition] at h
      obtain ⟨rest, ts, hrest, heq⟩ := Movie.doSlowExactSeeking_from_landing
        (Movie.isSeekEngine_admitted env) x fuel now position hv (fun _ _ _ => rfl) s3 h
      refine ⟨rest, hrest, ?_, ?_, fun hc => by cases hc⟩
      · rw [heq]
        simp [Movie.afterFirstLanding_trace, Movie.firstSeekCalls, Movie.methodFlags, hv]
      · intro hc
        rcases hc with hc | hc
        · cases hc
        · rw [hv] at hc
          cases hc
  · have hv0 : x.m_hasVideo = false := by
      cases hx : x.m_hasVideo
      · rfl
      · exact absurd hx hv
    refine ⟨[], by simp, ?_, fun _ => rfl, fun _ hc => absurd hc hv⟩
    by_cases ha : x.m_hasAudio = true
    · cases method <;>
        simp only [Movie.seekToPosition, Movie.doFastApproximativeSeeking,
          Movie.doFastLossySeeking, Movie.doSlowExactSeeking, Movie.seekAudio, hv0, ha,
          if_true, Bool.false_eq_true, if_false, Option.some.injEq] at h <;>
        subst h <;>
        rw [Movie.seekFrame_eq] <;>
        simp [Movie.firstSeekCalls, Movie.methodFlags, hv0, ha]
    · have ha0 : x.m_hasAudio = false := by
        cases hx : x.m_hasAudio
        · rfl
        · exact absurd hx ha
      cases method <;>
        simp only [Movie.seekToPosition, Movie.doFastApproximativeSeeking,
          Movie.doFastLossySeeking, Movie.doSlowExactSeeking, hv0, ha0,
          Bool.false_eq_true, if_false, Option.some.injEq] at h <;>
        subst h <;>
        simp [Movie.firstSeekCalls, hv0, ha0]

theorem Movie.seekToPosition_slow_far (x : Movie) (env : SeekEnv) (fuel : Nat)
    (now position : Int) (s3 : Movie) (hv : x.m_hasVideo = true)
    (hfar : absInt (x.firstLanding env now position - (env.refPosition position).tdiv 1000)
      > 20000)
    (h : x.seekToPosition env fuel now position SeekingMethod.SlowExactSeeking = some s3) :
    s3.trace = x.trace
      ++ x.firstSeekCalls env now position SeekingMethod.SlowExactSeeking
      ++ x.retryCalls env now position := by
  simp only [Movie.seekToPosition] at h
  rw [Movie.doSlowExactSeeking_far x env fuel now position hv hfar,
    Movie.doFastApproximativeSeeking_video x env now position hv, if_pos hfar,
    Movie.seekFrame_eq] at h
  cases h
  unfold Movie.retryCalls
  rw [if_pos hfar]
  simp [Movie.afterFirstLanding_trace, Movie.firstSeekCalls, Movie.methodFlags, hv]

theorem Movie.afterPreSeek_eq (s : Movie) (position : Int) :
    s.afterPreSeek position =
      { s with
        audioQueue := if s.m_hasAudio then [] else s.audioQueue
        videoQueue := if s.m_hasVideo then [] else s.videoQueue
        trace := s.trace ++ s.preSeekCalls position } := by
  cases s with
  | mk ctx hasVideo hasAudio eof status duration timer progress cv cvalid launches aid vid
      aq vq vts tr =>
    cases hasAudio <;> cases hasVideo <;>
      simp [Movie.afterPreSeek, IFAUDIO, IFVIDEO, Movie.trackPreSeek, Movie.preSeekCalls]

/-- C2: for every position, method and status, `setPlayingOffset` with one of the
two fast methods always returns, and whenever `setPlayingOffset` returns it has
called `preSeek` on each existing track, then run the seek, then set
`progressAtPause` to the position and restarted the timer, then called `postSeek`
on each existing track.  The seek starts with a demuxer seek on the video track when
it exists, else on the audio track when it exists, to the rescaled position with the
direction flag of the method (plus accept-any-frame for `FastLossySeeking`), followed
by its outcome and, on video, one forward decode; what follows consists of
seek-engine calls only, is empty for `FastLossySeeking` and without a video track,
is the corrective retry for `FastApproximativeSeeking`, and for `SlowExactSeeking`
is that retry when the first landing is more than 20000 ms off the target.  The
status is
unchanged, so the playing offset is the position when not Playing and the position
plus the time since the restart when Playing, whatever timestamp the seek landed
on. -/
theorem setPlayingOffset_sequence (s : Movie) (env : SeekEnv) (fuel : Nat)
    (now nowRestart position : Int) (method : SeekingMethod) :
    (method ≠ SeekingMethod.SlowExactSeeking →
      (s.setPlayingOffset env fuel now nowRestart position method).isSome = true) ∧
    (s.afterPreSeek position =
      { s with
        audioQueue := if s.m_hasAudio then [] else s.audioQueue
        videoQueue := if s.m_hasVideo then [] else s.videoQueue
        trace := s.trace ++ s.preSeekCalls position }) ∧
    (s.m_hasVideo = true →
      ∃ outcome, (outcome = Ev.seekError ∨ outcome = Ev.flushBuffers Track.video) ∧
        (s.afterPreSeek position).firstSeekCalls env now position method =
          [Ev.seekFrame s.videoStreamID
             (env.av_rescale_q (env.refPosition position) s.videoStreamID)
             (s.methodFlags now position method),
           outcome, Ev.loadNextImage]) ∧
    (s.m_hasVideo = false → s.m_hasAudio = true →
      ∃ outcome, (outcome = Ev.seekError ∨ outcome = Ev.flushBuffers Track.audio) ∧
        (s.afterPreSeek position).firstSeekCalls env now position method =
          [Ev.seekFrame s.audioStreamID
             (env.av_rescale_q (env.refPosition position) s.audioStreamID)
             (s.methodFlags now position method),
           outcome]) ∧
    (s.m_hasVideo = false → s.m_hasAudio = false →
      (s.afterPreSeek position).firstSeekCalls env now position method = []) ∧
    (∀ s1, s.setPlayingOffset env fuel now nowRestart position method = some s1 →
      (∃ (seekCalls rest : List Ev) (s3 : Movie),
        (∀ e ∈ seekCalls, e.isSeekEngine = true) ∧
        seekCalls = (s.afterPreSeek position).firstSeekCalls env now position method ++ rest ∧
        (method = SeekingMethod.FastLossySeeking ∨ s.m_hasVideo = false → rest = []) ∧
        (method = SeekingMethod.FastApproximativeSeeking → s.m_hasVideo = true →
          rest = (s.afterPreSeek position).retryCalls env now position) ∧
        (method = SeekingMethod.SlowExactSeeking → s.m_hasVideo = true →
          absInt ((s.afterPreSeek position).firstLanding env now position
            - (env.refPosition position).tdiv 1000) > 20000 →
          rest = (s.afterPreSeek position).retryCalls env now position) ∧
        (s.afterPreSeek position).seekToPosition env fuel now position method = some s3 ∧
        s3.trace = s.trace ++ s.preSeekCalls position ++ seekCalls ∧
        s1.trace = s.trace ++ s.preSeekCalls position ++ seekCalls
          ++ [Ev.timerRestart nowRestart] ++ s.postSeekCalls position) ∧
      s1.m_status = s.m_status ∧
      s1.m_progressAtPause = position ∧
      s1.m_overallTimer = nowRestart ∧
      (∀ t, s1.getPlayingOffset t =
        if s.m_status = Status.Playing then position + (t - nowRestart) else position)) := by
  have hflags : (s.afterPreSeek position).methodFlags now position method
      = s.methodFlags now position method := by
    rw [Movie.afterPreSeek_eq]
    cases method <;> rfl
  refine ⟨Movie.setPlayingOffset_fast_isSome s env fuel now nowRestart position method,
    Movie.afterPreSeek_eq s position, ?_, ?_, ?_, ?_⟩
  · intro hv
    refine ⟨seekOutcome env (s.afterPreSeek position).trace s.videoStreamID
      (env.av_rescale_q (env.refPosition position) s.videoStreamID)
      (s.methodFlags now position method) Track.video, ?_, ?_⟩
    · unfold seekOutcome
      split
      · exact Or.inl rfl
      · exact Or.inr rfl
    · unfold Movie.firstSeekCalls
      rw [hflags]
      rw [Movie.afterPreSeek_eq]
      simp [hv]
  · intro hv ha
    refine ⟨seekOutcome env (s.afterPreSeek position).trace s.audioStreamID
      (env.av_rescale_q (env.refPosition position) s.audioStreamID)
      (s.methodFlags now position method) Track.audio, ?_, ?_⟩
    · unfold seekOutcome
      split
      · exact Or.inl rfl
      · exact Or.inr rfl
    · unfold Movie.firstSeekCalls
      rw [hflags]
      rw [Movie.afterPreSeek_eq]
      simp [hv, ha]
  · intro hv ha
    unfold Movie.firstSeekCalls
    rw [Movie.afterPreSeek_eq]
    simp [hv, ha]
  · intro s1 h
    obtain ⟨evs, s3, hev, h3, ht3, rfl⟩ :=
      Movie.setPlayingOffset_run (Movie.isSeekEngine_admitted env) s fuel now nowRestart
        position method (fun _ _ _ => rfl) s1 h
    obtain ⟨rest, _, htr, hempty, hretry⟩ :=
      Movie.seekToPosition_first (s.afterPreSeek position) env fuel now position method s3 h3
    have hx : (s.afterPreSeek position).trace = s.trace ++ s.preSeekCalls position := by
      rw [Movie.afterPreSeek_eq]
    have hxv : (s.afterPreSeek position).m_hasVideo = s.m_hasVideo := by
      rw [Movie.afterPreSeek_eq]
    have hevs : evs = (s.afterPreSeek position).firstSeekCalls env now position method
        ++ rest := by
      rw [hx, ht3, List.append_assoc (s.trace ++ s.preSeekCalls position)] at htr
      exact List.append_cancel_left htr
    refine ⟨⟨evs, rest, s3, hev, hevs, ?_, ?_, ?_, h3, ht3, rfl⟩, rfl, rfl, rfl, ?_⟩
    · intro hc
      exact hempty (hc.imp id (fun hc2 => hxv.trans hc2))
    · intro hm hv
      exact hretry hm (hxv.trans hv)
    · intro hm hv hfar
      subst hm
      have hfull := Movie.seekToPosition_slow_far (s.afterPreSeek position) env fuel now
        position s3 (hxv.trans hv) hfar h3
      rw [htr] at hfull
      exact List.append_cancel_left hfull
    · intro t
      simp [Movie.getPlayingOffset, Movie.getElapsedTime]

/-- Witness of C2: an exact seek to 7 s on the playing video-only scenario, with a
decoder that overshoots, is rewound and then steps forward, returns after the calls
listed; one second after the restart the offset is 8 s.  A lossy seek on the paused
two-track scenario with a failing demuxer issues its seek on the video track. -/
theorem setPlayingOffset_sequence_witness :
    (sceneVideoPlaying.setPlayingOffset envSteps 5 3000000 3000100 7000000
      SeekingMethod.SlowExactSeeking).isSome = true ∧
    sceneVideoPlaying.callsSince
      ((sceneVideoPlaying.setPlayingOffset envSteps 5 3000000 3000100 7000000
        SeekingMethod.SlowExactSeeking).getD Movie.new) =
      [Ev.preSeek Track.video 7000000,
       Ev.seekFrame 0 7000000 0, Ev.flushBuffers Track.video, Ev.loadNextImage,
       Ev.seekFrame 0 6000000 0, Ev.flushBuffers Track.video, Ev.loadNextImage,
       Ev.loadNextImage, Ev.loadNextImage,
       Ev.timerRestart 3000100, Ev.postSeek Track.video 7000000] ∧
    ((sceneVideoPlaying.setPlayingOffset envSteps 5 3000000 3000100 7000000
      SeekingMethod.SlowExactSeeking).getD Movie.new).getPlayingOffset 4000100 = 8000000 ∧
    sceneBothPaused.callsSince
      ((sceneBothPaused.setPlayingOffset envSeekFails 0 3000000 3000100 5000000
        SeekingMethod.FastLossySeeking).getD Movie.new) =
      [Ev.preSeek Track.audio 5000000, Ev.preSeek Track.video 5000000,
       Ev.seekFrame 0 5000000 4, Ev.seekError, Ev.loadNextImage,
       Ev.timerRestart 3000100,
       Ev.postSeek Track.audio 5000000, Ev.postSeek Track.video 5000000] := by
  have hsome : (sceneVideoPlaying.setPlayingOffset envSteps 5 3000000 3000100 7000000
      SeekingMethod.SlowExactSeeking).isSome = true := by decide
  obtain ⟨s1, h1⟩ := Option.isSome_iff_exists.mp hsome
  refine ⟨hsome, by decide, ?_, by decide⟩
  rw [h1]
  exact (((setPlayingOffset_sequence sceneVideoPlaying envSteps 5 3000000 3000100 7000000
    SeekingMethod.SlowExactSeeking).2.2.2.2.2 s1 h1).2.2.2.2 4000100).trans (by decide)

end sfe
